import Mathlib

/-!
Shallow embedding of the ImmersiveAI-Engine state layer
(`src/core/database.js`, `src/state/manager.js`, `src/state/validator.js`,
`src/state/extractor.js`, `src/state/integrator.js`).

Modelling conventions:
* JS data objects are association lists `Obj := List (String × Value)`;
  property read is first-match, property write replaces in place (or appends),
  mirroring JS object key semantics.
* Structured sub-fields (personality, metadata, connected_to, tags,
  participants, properties) are opaque blobs to the store; `JSON.stringify`
  followed by `JSON.parse` is the identity on them, so serialization is
  modelled as the identity and `JSON.parse` as a shape check.  Blob payloads
  are modelled as flat JSON documents (`Prim`), which covers every document
  the state layer constructs.
* `Date.now()` is an explicit clock field (`St.now`), frozen during a call;
  `randomUUID()` is an explicit stream `St.ids` with counter `St.ctr`.
* SQLite behaviour of `better-sqlite3` is embedded explicitly: inserts stamp
  `created_at` / `updated_at`, updates re-stamp `updated_at`, the schema CHECK /
  NOT NULL / primary-key / foreign-key constraints of `src/core/schema.sql`
  make a statement fail, and `transaction` rolls everything back on error and
  rethrows.
-/

/-- Flat JSON primitive used inside opaque blob payloads. -/
inductive Prim where
  | pint (n : Int)
  | pstr (s : String)
  | pbool (b : Bool)
  | pnull
  deriving DecidableEq, Repr

/-- A JS value as stored in a row or passed in a data object. -/
inductive Value where
  | vint (n : Int)
  | vstr (s : String)
  | vbool (b : Bool)
  | vnull
  | varr (l : List (List (String × Prim)))
  | vstrarr (l : List String)
  | vobjv (o : List (String × Prim))
  deriving DecidableEq, Repr

/-- A JS data object / database row: ordered association list of fields. -/
abbrev Obj := List (String × Value)

/-- Property read: first entry wins (JS object keys are unique). -/
def objGet (o : Obj) (k : String) : Option Value :=
  (o.find? (fun e => e.1 = k)).map (·.2)

/-- Property write: replace the entry in place, or append a new one;
this matches JS object assignment / spread override semantics. -/
def objSet (o : Obj) (k : String) (v : Value) : Obj :=
  match o with
  | [] => [(k, v)]
  | (k', v') :: rest =>
    if k' = k then (k, v) :: rest else (k', v') :: objSet rest k v

/-- Merge `upd` into `r`, field by field (the SQL `SET k = ?` list, or a JS
spread `{...r, ...upd}` as far as property reads are concerned). -/
def objMergeInto (r : Obj) (upd : Obj) : Obj :=
  upd.foldl (fun acc e => objSet acc e.1 e.2) r

/-- JS truthiness of a value. -/
def truthyV : Value → Bool
  | .vint n => n ≠ 0
  | .vstr s => s ≠ ""
  | .vbool b => b
  | .vnull => false
  | .varr _ => true
  | .vstrarr _ => true
  | .vobjv _ => true

/-- JS truthiness of a possibly-missing property (`undefined` is falsy). -/
def truthy : Option Value → Bool
  | none => false
  | some v => truthyV v

/-- JS `x || d` on a possibly-missing property. -/
def jsOr (v : Option Value) (d : Value) : Value :=
  match v with
  | some x => if truthyV x then x else d
  | none => d

/-- JS numeric coercion, with `none` standing for `NaN`
(every comparison against `NaN` is false). -/
def jsToNum : Value → Option Int
  | .vint n => some n
  | .vbool b => some (if b then 1 else 0)
  | .vnull => some 0
  | .vstr s =>
    if s = "" then some 0
    else if s.data.all (fun c => '0' ≤ c ∧ c ≤ '9') then
      some (s.data.foldl (fun acc c => 10 * acc + (c.toNat - 48)) (0 : Int))
    else none
  | _ => none

/-- JS `character.affection || 0` as an integer. -/
def jsNumOr0 : Option Value → Int
  | some (.vint n) => n
  | _ => 0

-- ============================================
-- Validation findings (src/state/validator.js)
-- ============================================

/-- Severity constant set `SEVERITY` of the validator. -/
inductive Sev where
  | error
  | warning
  | info
  deriving DecidableEq, Repr

/-- One finding pushed by a validation rule.  The JS objects carry extra
context fields (currentValue, delta, ...); only the fields the control flow
reads are modelled.  Findings pushed by `catch` blocks of the integrator have
no `severity` property, hence the `Option`. -/
structure Finding where
  field : String
  message : String
  severity : Option Sev
  deriving DecidableEq, Repr

/-- Result record of the validator (`_buildResult`). -/
structure VResult where
  passed : Bool
  errors : List Finding
  warnings : List Finding
  info : List Finding
  deriving DecidableEq, Repr

/-- `StateValidator._buildResult`: `passed` is taken verbatim from the caller
(computed there as `errors.length === 0` over the raw, unfiltered list), while
the output lists are filtered by severity. -/
def buildResult (passed : Bool) (errors : List Finding) (warnings : List Finding) : VResult :=
  { passed := passed
    errors := errors.filter (fun e => e.severity = some Sev.error)
    warnings := warnings ++ errors.filter (fun e => e.severity = some Sev.warning)
    info := errors.filter (fun e => e.severity = some Sev.info) }

-- ============================================
-- Database (src/core/database.js + schema.sql)
-- ============================================

/-- The five mutable state tables. -/
inductive Tbl where
  | characters
  | timeline
  | locations
  | inventory
  | memories
  deriving DecidableEq, Repr

/-- Full dump of the five mutable tables (the parsed `state_data` blob of a
snapshot; `JSON.parse ∘ JSON.stringify` is the identity on it). -/
structure SnapState where
  characters : List Obj
  timeline : List Obj
  locations : List Obj
  inventory : List Obj
  memories : List Obj
  deriving DecidableEq, Repr

/-- A row of the `state_snapshots` table. -/
structure SnapRow where
  id : String
  snapshot_time : Int
  state_data : SnapState
  description : String
  created_at : Int
  updated_at : Int
  deriving DecidableEq, Repr

/-- The persistent store state. -/
structure Db where
  characters : List Obj
  timeline : List Obj
  locations : List Obj
  inventory : List Obj
  memories : List Obj
  snapshots : List SnapRow
  deriving DecidableEq, Repr

def Db.tbl (db : Db) : Tbl → List Obj
  | .characters => db.characters
  | .timeline => db.timeline
  | .locations => db.locations
  | .inventory => db.inventory
  | .memories => db.memories

def Db.setTbl (db : Db) : Tbl → List Obj → Db
  | .characters, rows => { db with characters := rows }
  | .timeline, rows => { db with timeline := rows }
  | .locations, rows => { db with locations := rows }
  | .inventory, rows => { db with inventory := rows }
  | .memories, rows => { db with memories := rows }

/-- Conjunctive equality filter (`_buildWhereClause` with plain values;
SQL `=` against a row that lacks the value never matches). -/
abbrev DbWhere := List (String × Value)

def rowMatches (r : Obj) (w : DbWhere) : Bool :=
  w.all (fun e => objGet r e.1 == some e.2)

/-- `DatabaseManager.get`: first matching row or none. -/
def dbGet (db : Db) (t : Tbl) (w : DbWhere) : Option Obj :=
  ((db.tbl t).filter (fun r => rowMatches r w)).head?

/-- `DatabaseManager.getAll` restricted to the equality filters the state
layer uses (no ordering / limit is requested on those calls). -/
def dbGetAll (db : Db) (t : Tbl) (w : DbWhere) : List Obj :=
  (db.tbl t).filter (fun r => rowMatches r w)

/-- The record built by `DatabaseManager.insert`:
`{...data, id: data.id || randomUUID(), created_at: now, updated_at: now}`. -/
def mkInsertRecord (data : Obj) (now : Int) (fresh : String) : Obj :=
  objSet
    (objSet
      (objSet data "id" (jsOr (objGet data "id") (.vstr fresh)))
      "created_at" (.vint now))
    "updated_at" (.vint now)

/-- NOT NULL check for one column. -/
def colNotNull (r : Obj) (k : String) : Bool :=
  match objGet r k with
  | some v => v ≠ .vnull
  | none => false

/-- CHECK range constraint for an integer column (NULL passes a CHECK). -/
def colIntRange (r : Obj) (k : String) (lo hi : Int) : Bool :=
  match objGet r k with
  | some (.vint n) => lo ≤ n ∧ n ≤ hi
  | _ => true

/-- Per-table CHECK / NOT NULL constraints of `schema.sql`. -/
def rowOk (t : Tbl) (r : Obj) : Bool :=
  match t with
  | .characters => colNotNull r "name" && colIntRange r "affection" 0 100
  | .timeline =>
    colNotNull r "timestamp" && colNotNull r "event_type" &&
      colNotNull r "description" && colIntRange r "importance" 1 5
  | .locations => colNotNull r "name"
  | .inventory =>
    colNotNull r "character_id" && colNotNull r "item_name" &&
      (match objGet r "quantity" with
       | some (.vint n) => 0 ≤ n
       | _ => true)
  | .memories =>
    colNotNull r "character_id" && colNotNull r "content" &&
      colNotNull r "timestamp" && colIntRange r "importance" 1 5

/-- Primary-key freshness: no existing row with the same id. -/
def pkFresh (db : Db) (t : Tbl) (r : Obj) : Bool :=
  (db.tbl t).all (fun q => ¬ (objGet q "id" == objGet r "id"))

/-- The reference check behind the `character_id` foreign keys: the value
must match an existing character id (a NULL value vacuously satisfies a
FK, but NOT NULL rejects it first). -/
def fkRef (chars : List Obj) (r : Obj) : Bool :=
  match objGet r "character_id" with
  | some .vnull => true
  | none => true
  | some v => chars.any (fun c => objGet c "id" == some v)

/-- The reference check behind `locations.parent_location REFERENCES
locations(id)`: a NULL or absent value satisfies the FK; otherwise the value
must match a location id in `locs`. -/
def parentRef (locs : List Obj) (r : Obj) : Bool :=
  match objGet r "parent_location" with
  | some .vnull => true
  | none => true
  | some v => locs.any (fun c => objGet c "id" == some v)

/-- Foreign-key constraints enforced on insert (`foreign_keys = ON`):
`inventory.character_id` and `memories.character_id` must reference an
existing character, and `locations.parent_location` an existing location.
SQLite's immediate check runs once the row is in the table, so the inserted
row itself is in scope for the self-referencing locations FK. -/
def fkOk (db : Db) (t : Tbl) (r : Obj) : Bool :=
  match t with
  | .inventory | .memories => fkRef db.characters r
  | .locations => parentRef (db.locations ++ [r]) r
  | _ => true

/-- UNIQUE(name) on `locations`. -/
def nameUnique (db : Db) (t : Tbl) (r : Obj) : Bool :=
  match t with
  | .locations => (db.locations).all (fun q => ¬ (objGet q "name" == objGet r "name"))
  | _ => true

/-- `DatabaseManager.insert`: stamp the record, then run the statement; a
constraint violation throws and leaves the table unchanged. -/
def dbInsertE (db : Db) (t : Tbl) (data : Obj) (now : Int) (fresh : String) :
    Except String (Value × Db) :=
  let record := mkInsertRecord data now fresh
  if rowOk t record && pkFresh db t record && fkOk db t record && nameUnique db t record then
    .ok (jsOr (objGet data "id") (.vstr fresh), db.setTbl t (db.tbl t ++ [record]))
  else
    .error "constraint violation"

/-- `DatabaseManager.update`: `{...data, updated_at: now}` applied to every
matching row; the statement is all-or-nothing, so a CHECK violation on any
updated row throws and changes nothing. -/
def dbUpdateE (db : Db) (t : Tbl) (w : DbWhere) (data : Obj) (now : Int) :
    Except String (Nat × Db) :=
  let upd := objSet data "updated_at" (.vint now)
  let rows := db.tbl t
  if rows.all (fun r => !(rowMatches r w) || rowOk t (objMergeInto r upd)) then
    .ok (((rows.filter (fun r => rowMatches r w)).length),
      db.setTbl t (rows.map (fun r => if rowMatches r w then objMergeInto r upd else r)))
  else
    .error "constraint violation"

/-- `DatabaseManager.delete`; deleting characters cascades to their
inventory and memories (`ON DELETE CASCADE`). -/
def dbDelete (db : Db) (t : Tbl) (w : DbWhere) : Nat × Db :=
  let rows := db.tbl t
  let kept := rows.filter (fun r => ¬ rowMatches r w)
  let n := rows.length - kept.length
  let db' := db.setTbl t kept
  match t with
  | .characters =>
    let gone := rows.filter (fun r => rowMatches r w)
    let live := fun (r : Obj) =>
      ¬ gone.any (fun c => objGet c "id" == objGet r "character_id")
    (n, { db' with inventory := db'.inventory.filter live,
                   memories := db'.memories.filter live })
  | _ => (n, db')

/-- `DatabaseManager.raw('DELETE FROM <t>')` as used by `restoreSnapshot`. -/
def dbClear (db : Db) (t : Tbl) : Db := db.setTbl t []

/-- `DatabaseManager.transaction`: run the callback; an error thrown inside
rolls back every write (the caller keeps the pre-transaction `Db`) and is
rethrown. -/
def dbTransaction (db : Db) (body : Db → Except String Db) : Except String Db :=
  match body db with
  | .ok db' => .ok db'
  | .error e => .error e

-- ============================================
-- State cache and StateManager (src/state/manager.js)
-- ============================================

/-- One cache entry: `{data, timestamp}`. -/
structure CEntry where
  data : Obj
  timestamp : Int
  deriving DecidableEq, Repr

/-- A per-entity-type cache bucket, with JS `Map` ordering semantics:
`set` keeps the position of an existing key and appends a fresh one, and
`keys().next().value` is the head. -/
abbrev Bucket := List (String × CEntry)

def bucketGet (b : Bucket) (k : String) : Option CEntry :=
  (b.find? (fun e => e.1 = k)).map (·.2)

def bucketSet (b : Bucket) (k : String) (v : CEntry) : Bucket :=
  match b with
  | [] => [(k, v)]
  | (k', v') :: rest =>
    if k' = k then (k, v) :: rest else (k', v') :: bucketSet rest k v

def bucketDelete (b : Bucket) (k : String) : Bucket :=
  b.filter (fun e => ¬ e.1 = k)

/-- Delete the first key of a `Map` (`map.keys().next().value`). -/
def bucketDeleteFirst (b : Bucket) : Bucket :=
  match b with
  | [] => []
  | (k, _) :: _ => bucketDelete b k

/-- Whole-system state of the state layer: the store, the three cache
buckets, the `StateManager` options, the clock and the uuid stream. -/
structure St where
  db : Db
  cacheChars : Bucket
  cacheLocs : Bucket
  cacheInv : Bucket
  enableCache : Bool
  cacheSize : Nat
  cacheTTL : Int
  now : Int
  ids : Nat → String
  ctr : Nat

/-- Draw the next `randomUUID()`. -/
def St.fresh (st : St) : String × St :=
  (st.ids st.ctr, { st with ctr := st.ctr + 1 })

/-- `StateManager.getCharacterState`: cache hit within TTL returns the cached
row; otherwise the store is read and, when the character exists, cached,
evicting the first-inserted key when the bucket exceeds `cacheSize`. -/
def getCharacterState (st : St) (characterId : String) : Option Obj × St :=
  match if st.enableCache then bucketGet st.cacheChars characterId else none with
  | some cached =>
    if st.now - cached.timestamp < st.cacheTTL then
      (some cached.data, st)
    else
      getCharacterStateMiss st characterId
  | none => getCharacterStateMiss st characterId
where
  /-- Cache-miss path: store read plus cache repopulation. -/
  getCharacterStateMiss (st : St) (characterId : String) : Option Obj × St :=
    let character := dbGet st.db .characters [("id", .vstr characterId)]
    match character with
    | some c =>
      if st.enableCache then
        let b := bucketSet st.cacheChars characterId ⟨c, st.now⟩
        let b := if b.length > st.cacheSize then bucketDeleteFirst b else b
        (some c, { st with cacheChars := b })
      else
        (some c, st)
    | none => (none, st)

/-- Serialize a blob-valued property in place when it is truthy
(`data.personality ? JSON.stringify(data.personality) : ...`); serialization
itself is the identity in this model. -/
def jsonifyField (o : Obj) (k : String) : Obj :=
  match objGet o k with
  | some v => if truthyV v then objSet o k v else o
  | none => o

/-- `StateManager.createCharacter`. -/
def createCharacter (st : St) (data : Obj) : Except String Value × St :=
  let (u, st) := st.fresh
  let characterData : Obj :=
    [("id", jsOr (objGet data "id") (.vstr u)),
     ("name", (objGet data "name").getD .vnull),
     ("affection", jsOr (objGet data "affection") (.vint 0)),
     ("emotion", jsOr (objGet data "emotion") (.vstr "neutral")),
     ("personality", if truthy (objGet data "personality")
        then (objGet data "personality").getD .vnull else .vnull),
     ("current_location", jsOr (objGet data "current_location") .vnull),
     ("metadata", if truthy (objGet data "metadata")
        then (objGet data "metadata").getD .vnull else .vnull)]
  let (u2, st) := st.fresh
  match dbInsertE st.db .characters characterData st.now u2 with
  | .ok (i, db') =>
    let cid := match objGet characterData "id" with
      | some (.vstr s) => s
      | _ => ""
    (.ok i, { st with db := db', cacheChars := bucketDelete st.cacheChars cid })
  | .error e => (.error e, st)

/-- `StateManager.updateCharacterState`: store update, then strict cache
invalidation for that id; a store failure rethrows without invalidating. -/
def updateCharacterState (st : St) (characterId : String) (updates : Obj) :
    Except String Nat × St :=
  let updateData := jsonifyField (jsonifyField updates "personality") "metadata"
  match dbUpdateE st.db .characters [("id", .vstr characterId)] updateData st.now with
  | .ok (n, db') =>
    (.ok n, { st with db := db', cacheChars := bucketDelete st.cacheChars characterId })
  | .error e => (.error e, st)

/-- `StateManager.deleteCharacter`. -/
def deleteCharacter (st : St) (characterId : String) : Nat × St :=
  let (n, db') := dbDelete st.db .characters [("id", .vstr characterId)]
  (n, { st with db := db', cacheChars := bucketDelete st.cacheChars characterId })

/-- Parse a location row for callers (`connected_to` and `metadata` blobs
are parsed, missing blobs default to `[]` / `{}`). -/
def parseLocationRow (location : Obj) : Obj :=
  objSet
    (objSet location "connected_to"
      (if truthy (objGet location "connected_to")
        then (objGet location "connected_to").getD (.varr [])
        else .varr []))
    "metadata"
    (if truthy (objGet location "metadata")
      then (objGet location "metadata").getD (.vobjv [])
      else .vobjv [])

/-- `StateManager.getLocation`: like the character read it consults the
bucket first and repopulates it, but performs no size limiting at all. -/
def getLocation (st : St) (locationId : String) : Option Obj × St :=
  match if st.enableCache then bucketGet st.cacheLocs locationId else none with
  | some cached =>
    if st.now - cached.timestamp < st.cacheTTL then
      (some cached.data, st)
    else
      getLocationMiss st locationId
  | none => getLocationMiss st locationId
where
  getLocationMiss (st : St) (locationId : String) : Option Obj × St :=
    match dbGet st.db .locations [("id", .vstr locationId)] with
    | some location =>
      let parsedLocation := parseLocationRow location
      if st.enableCache then
        (some parsedLocation,
          { st with cacheLocs := bucketSet st.cacheLocs locationId ⟨parsedLocation, st.now⟩ })
      else
        (some parsedLocation, st)
    | none => (none, st)

/-- `StateManager.createLocation`. -/
def createLocation (st : St) (data : Obj) : Except String Value × St :=
  let (u, st) := st.fresh
  let locationData : Obj :=
    [("id", jsOr (objGet data "id") (.vstr u)),
     ("name", (objGet data "name").getD .vnull),
     ("type", jsOr (objGet data "type") .vnull),
     ("parent_location", jsOr (objGet data "parent_location") .vnull),
     ("connected_to", if truthy (objGet data "connected_to")
        then (objGet data "connected_to").getD .vnull else .vnull),
     ("description", jsOr (objGet data "description") .vnull),
     ("metadata", if truthy (objGet data "metadata")
        then (objGet data "metadata").getD .vnull else .vnull)]
  let (u2, st) := st.fresh
  match dbInsertE st.db .locations locationData st.now u2 with
  | .ok (i, db') => (.ok i, { st with db := db' })
  | .error e => (.error e, st)

/-- `StateManager.getInventory` (equality filters only; `properties` blobs
parsed, defaulting to `{}`). -/
def getInventory (st : St) (characterId : String)
    (itemType : Option String) (equipped : Option Bool) : List Obj :=
  let w : DbWhere :=
    [("character_id", .vstr characterId)] ++
      (match itemType with | some t => [("item_type", .vstr t)] | none => []) ++
      (match equipped with
        | some e => [("equipped", .vint (if e then 1 else 0))]
        | none => [])
  (dbGetAll st.db .inventory w).map (fun item =>
    objSet item "properties"
      (if truthy (objGet item "properties")
        then (objGet item "properties").getD (.vobjv []) else .vobjv []))

/-- `StateManager.addInventoryItem`. -/
def addInventoryItem (st : St) (characterId : String) (item : Obj) :
    Except String Value × St :=
  let (u, st) := st.fresh
  let itemData : Obj :=
    [("id", jsOr (objGet item "id") (.vstr u)),
     ("character_id", .vstr characterId),
     ("item_name", (objGet item "item_name").getD .vnull),
     ("item_type", jsOr (objGet item "item_type") .vnull),
     ("quantity", jsOr (objGet item "quantity") (.vint 1)),
     ("equipped", .vint (if truthy (objGet item "equipped") then 1 else 0)),
     ("properties", if truthy (objGet item "properties")
        then (objGet item "properties").getD .vnull else .vnull)]
  let (u2, st) := st.fresh
  match dbInsertE st.db .inventory itemData st.now u2 with
  | .ok (i, db') => (.ok i, { st with db := db' })
  | .error e => (.error e, st)

/-- `StateManager.deleteInventoryItem`. -/
def deleteInventoryItem (st : St) (itemId : String) : Nat × St :=
  let (n, db') := dbDelete st.db .inventory [("id", .vstr itemId)]
  (n, { st with db := db' })

/-- `StateManager.addTimelineEvent` (timeline events are validated before
this call; the store may still reject them). -/
def addTimelineEvent (st : St) (event : Obj) : Except String Value × St :=
  let (u, st) := st.fresh
  let eventData : Obj :=
    [("id", jsOr (objGet event "id") (.vstr u)),
     ("timestamp", jsOr (objGet event "timestamp") (.vint st.now)),
     ("event_type", (objGet event "event_type").getD .vnull),
     ("description", (objGet event "description").getD .vnull),
     ("participants", if truthy (objGet event "participants")
        then (objGet event "participants").getD .vnull else .vnull),
     ("location", jsOr (objGet event "location") .vnull),
     ("importance", jsOr (objGet event "importance") (.vint 1)),
     ("metadata", if truthy (objGet event "metadata")
        then (objGet event "metadata").getD .vnull else .vnull)]
  let (u2, st) := st.fresh
  match dbInsertE st.db .timeline eventData st.now u2 with
  | .ok (i, db') => (.ok i, { st with db := db' })
  | .error e => (.error e, st)

/-- `StateManager.createSnapshot`: one full dump of the five tables stored
as a fresh snapshot row (the `state_snapshots` insert stamps it like any
other insert). -/
def createSnapshot (st : St) (description : String) : String × St :=
  let (snapshotId, st) := st.fresh
  let state : SnapState :=
    { characters := st.db.characters
      timeline := st.db.timeline
      locations := st.db.locations
      inventory := st.db.inventory
      memories := st.db.memories }
  let row : SnapRow :=
    { id := snapshotId, snapshot_time := st.now, state_data := state,
      description := description, created_at := st.now, updated_at := st.now }
  (snapshotId, { st with db := { st.db with snapshots := st.db.snapshots ++ [row] } })

/-- Re-insert every row of one dumped table through `DatabaseManager.insert`,
threading the uuid counter. -/
def insertAllE (t : Tbl) (rows : List Obj) (now : Int) (ids : Nat → String)
    (k : Nat) (db : Db) : Except String (Db × Nat) :=
  match rows with
  | [] => .ok (db, k)
  | r :: rest =>
    match dbInsertE db t r now (ids k) with
    | .ok (_, db') => insertAllE t rest now ids (k + 1) db'
    | .error e => .error e

/-- Final step of `restoreSnapshot`: on transaction success the new store is
installed and the entire cache cleared; a transaction error is rethrown with
the pre-restore state intact. -/
def restoreApply (st : St) (res : Except String Db) : Except String Unit × St :=
  match res with
  | .ok db' =>
    (.ok (), { st with db := db', cacheChars := [], cacheLocs := [], cacheInv := [] })
  | .error e => (.error e, st)

/-- `StateManager.restoreSnapshot`: look the snapshot up, then inside one
store transaction delete all rows of the five tables and re-insert the dumped
rows; on any error the transaction rolls back, nothing is applied (the caches
are only cleared after a successful transaction) and the error propagates. -/
def restoreSnapshot (st : St) (snapshotId : String) : Except String Unit × St :=
  match st.db.snapshots.find? (fun s => s.id = snapshotId) with
  | none => (.error ("Snapshot not found: " ++ snapshotId), st)
  | some snapshot =>
    let state := snapshot.state_data
    let body : Db → Except String Db := fun db0 => do
      let db1 := dbClear (dbClear (dbClear (dbClear (dbClear db0
        .characters) .timeline) .locations) .inventory) .memories
      let (db2, k2) ← insertAllE .characters state.characters st.now st.ids st.ctr db1
      let (db3, k3) ← insertAllE .timeline state.timeline st.now st.ids k2 db2
      let (db4, k4) ← insertAllE .locations state.locations st.now st.ids k3 db3
      let (db5, k5) ← insertAllE .inventory state.inventory st.now st.ids k4 db4
      let (db6, _) ← insertAllE .memories state.memories st.now st.ids k5 db5
      pure db6
    restoreApply st (dbTransaction st.db body)

/-- `StateManager.clearCache`. -/
def clearCache (st : St) : St :=
  { st with cacheChars := [], cacheLocs := [], cacheInv := [] }

-- ============================================
-- Validator (src/state/validator.js)
-- ============================================

/-- The update object accepted by `validateCharacterUpdate`: each property is
optional (`!== undefined` guards), `current_location` may be present with a
null value. -/
structure CharUpdates where
  affection : Option Int
  emotion : Option String
  current_location : Option Value
  deriving DecidableEq, Repr

/-- `StateValidator._validateAffection`: range 0-100 is an ERROR, a change of
more than 20 against a non-null current value is a WARNING (both are pushed
onto the same raw list). -/
def validateAffection (currentValue : Option Value) (newValue : Int) : List Finding :=
  let rangeErrors : List Finding :=
    if newValue < 0 ∨ newValue > 100 then
      [{ field := "affection",
         message := "Affection must be between 0-100, got " ++ toString newValue,
         severity := some .error }]
    else []
  let deltaErrors : List Finding :=
    match currentValue with
    | some v =>
      if v = .vnull then []
      else
        match jsToNum v with
        | some c =>
          let delta := (newValue - c).natAbs
          if delta > 20 then
            [{ field := "affection",
               message := "Affection change too large: " ++ toString delta ++
                 " (max 20 per update)",
               severity := some .warning }]
          else []
        | none => []
    | none => []
  rangeErrors ++ deltaErrors

/-- The ten legal emotions of `_validateEmotion`. -/
def validEmotions : List String :=
  ["neutral", "happy", "sad", "angry", "excited",
   "scared", "confused", "calm", "anxious", "loving"]

/-- The static unlikely-transition table of `_validateEmotion`. -/
def invalidTransitions (e : String) : List String :=
  if e = "happy" then ["sad", "angry", "scared"]
  else if e = "sad" then ["happy", "excited"]
  else if e = "angry" then ["happy", "loving"]
  else if e = "calm" then ["angry", "anxious"]
  else []

/-- `StateValidator._validateEmotion`: a value outside the ten emotions is an
ERROR; a listed transition from a truthy current emotion is a WARNING. -/
def validateEmotion (currentEmotion : Option Value) (newEmotion : String) : List Finding :=
  let validityErrors : List Finding :=
    if ¬ validEmotions.contains newEmotion then
      [{ field := "emotion",
         message := "Invalid emotion: " ++ newEmotion,
         severity := some .error }]
    else []
  let transitionErrors : List Finding :=
    match currentEmotion with
    | some (.vstr cur) =>
      if cur ≠ "" ∧ (invalidTransitions cur).contains newEmotion then
        [{ field := "emotion",
           message := "Unlikely emotion transition: " ++ cur ++ " to " ++ newEmotion,
           severity := some .warning }]
      else []
    | _ => []
  validityErrors ++ transitionErrors

/-- `StateValidator._validateLocationChange`: skipped entirely when either end
is falsy; a missing target is an ERROR; an existing but unconnected target is
a WARNING (a malformed `connected_to` blob silently skips the check). -/
def validateLocationChange (db : Db) (currentLocation : Option Value)
    (newLocation : Value) : List Finding :=
  if ¬ truthy currentLocation ∨ ¬ truthyV newLocation then []
  else
    match dbGet db .locations [("id", newLocation)] with
    | none =>
      [{ field := "current_location",
         message := "Location does not exist",
         severity := some .error }]
    | some _ =>
      match currentLocation with
      | some cur =>
        match dbGet db .locations [("id", cur)] with
        | some currentLocationData =>
          match objGet currentLocationData "connected_to" with
          | some (.varr connectedLocations) =>
            let isReachable := connectedLocations.any (fun loc =>
              (loc.find? (fun e => e.1 = "id")).map (·.2) ==
                some (match newLocation with
                  | .vstr s => Prim.pstr s
                  | .vint n => Prim.pint n
                  | .vbool b => Prim.pbool b
                  | _ => Prim.pnull))
            if ¬ isReachable ∧ cur ≠ newLocation then
              [{ field := "current_location",
                 message := "Location is not reachable",
                 severity := some .warning }]
            else []
          | _ => []
        | none => []
      | none => []

/-- `StateValidator.validateCharacterUpdate`: fetch the current committed row,
run the three per-field checks over one shared raw list, and hand
`errors.length === 0` to `_buildResult` as `passed`. -/
def validateCharacterUpdate (db : Db) (characterId : String)
    (updates : CharUpdates) : VResult :=
  match dbGet db .characters [("id", .vstr characterId)] with
  | none =>
    buildResult false
      [{ field := "id",
         message := "Character not found: " ++ characterId,
         severity := some .error }] []
  | some currentState =>
    let errors :=
      (match updates.affection with
        | some v => validateAffection (objGet currentState "affection") v
        | none => []) ++
      (match updates.emotion with
        | some e => validateEmotion (objGet currentState "emotion") e
        | none => []) ++
      (match updates.current_location with
        | some l => validateLocationChange db (objGet currentState "current_location") l
        | none => [])
    buildResult (errors.length = 0) errors []

/-- The event object validated by `validateTimelineEvent` and produced by the
event extractor. -/
structure EventData where
  event_type : Option String
  description : Option String
  timestamp : Option Int
  importance : Option Int
  participants : Option (List String)
  deriving DecidableEq, Repr

/-- `StateValidator._validateTimestamp`. -/
def validateTimestamp (now : Int) (timestamp : Int) : List Finding :=
  (if timestamp < 0 then
    [{ field := "timestamp",
       message := "Invalid timestamp: " ++ toString timestamp,
       severity := some .error }]
  else []) ++
  (if timestamp > now + 86400000 then
    [{ field := "timestamp",
       message := "Timestamp is too far in the future",
       severity := some .warning }]
  else [])

/-- `StateValidator._validateParticipants` (the argument is always an array
here, so only the size check is reachable). -/
def validateParticipants (participants : List String) : List Finding :=
  if participants.length > 10 then
    [{ field := "participants",
       message := "Too many participants: " ++ toString participants.length ++
         " (max 10)",
       severity := some .warning }]
  else []

/-- `StateValidator.validateTimelineEvent`. -/
def validateTimelineEvent (now : Int) (event : EventData) : VResult :=
  let errors :=
    (if ¬ truthy (event.event_type.map Value.vstr) then
      [{ field := "event_type", message := "Event type is required",
         severity := some .error }]
    else []) ++
    (if ¬ truthy (event.description.map Value.vstr) then
      [{ field := "description", message := "Event description is required",
         severity := some .error }]
    else []) ++
    (match event.timestamp with
      | some ts => validateTimestamp now ts
      | none => []) ++
    (match event.importance with
      | some imp =>
        if imp < 1 ∨ imp > 5 then
          [{ field := "importance",
             message := "Importance must be between 1-5, got " ++ toString imp,
             severity := some .error }]
        else []
      | none => []) ++
    (match event.participants with
      | some ps => validateParticipants ps
      | none => [])
  buildResult (errors.length = 0) errors []

/-- The item object validated by `validateInventoryItem`. -/
structure ItemData where
  id : Option String
  item_name : Option String
  item_type : Option String
  quantity : Option Int
  equipped : Bool
  deriving DecidableEq, Repr

/-- `StateValidator._validateEquipmentConflict`. -/
def validateEquipmentConflict (db : Db) (characterId : String)
    (itemType : String) (currentItemId : Option String) : List Finding :=
  let slotTypes := ["weapon", "armor", "accessory"]
  if slotTypes.contains itemType then
    let equippedItems := dbGetAll db .inventory
      [("character_id", .vstr characterId), ("item_type", .vstr itemType),
       ("equipped", .vint 1)]
    let conflictingItems := equippedItems.filter (fun item =>
      ¬ (objGet item "id" == currentItemId.map Value.vstr))
    if conflictingItems.length > 0 then
      [{ field := "equipped",
         message := "Already has equipped " ++ itemType,
         severity := some .warning }]
    else []
  else []

/-- `StateValidator.validateInventoryItem`. -/
def validateInventoryItem (db : Db) (characterId : String) (item : ItemData) : VResult :=
  let errors :=
    (if ¬ truthy (item.item_name.map Value.vstr) then
      [{ field := "item_name", message := "Item name is required",
         severity := some .error }]
    else []) ++
    (match item.quantity with
      | some q =>
        (if q < 0 then
          [{ field := "quantity",
             message := "Quantity cannot be negative: " ++ toString q,
             severity := some .error }]
        else []) ++
        (if q > 999 then
          [{ field := "quantity",
             message := "Quantity too large: " ++ toString q ++ " (max 999)",
             severity := some .warning }]
        else [])
      | none => []) ++
    (if item.equipped ∧ truthy (item.item_type.map Value.vstr) then
      validateEquipmentConflict db characterId (item.item_type.getD "") item.id
    else [])
  buildResult (errors.length = 0) errors []

-- ============================================
-- Regex engine (JS regex semantics for the extractor patterns)
-- ============================================

/-- Abstract syntax for the regex fragment the extractor uses.  Alternatives
and quantifiers are matched with JS backtracking priority (leftmost match,
alternation tries the left branch first, `star` is greedy, `lazyStar` lazy).
Case-insensitive patterns (`i` flag) encode the folding in their character
nodes, so matching itself is exact. -/
inductive Re where
  | eps
  | chr (c : Char)
  | cls (p : Char → Bool)
  | anych
  | seq (a b : Re)
  | alt (a b : Re)
  | star (a : Re)
  | lazyStar (a : Re)
  | group (n : Nat) (a : Re)
  | bos

/-- Captured groups of one match attempt. -/
abbrev Caps := List (Nat × List Char)

def capSet (n : Nat) (v : List Char) : Caps → Caps
  | [] => [(n, v)]
  | (m, w) :: rest => if m = n then (n, v) :: rest else (m, w) :: capSet n v rest

/-- JS `match[n]`: the captured text, or `undefined` when the group never
participated. -/
def capGet (caps : Caps) (n : Nat) : Option (List Char) :=
  (caps.find? (fun e => e.1 = n)).map (·.2)

/-- All ways to match `r` against a prefix of `s` (which starts at absolute
position `pos`), in backtracking priority order; the head is the alternative
a JS engine commits to.  `fuel` bounds the recursion depth and is chosen
large enough by the callers. -/
def Re.mats : Nat → Re → List Char → Nat → Caps → List (List Char × Nat × Caps)
  | 0, _, _, _, _ => []
  | fuel + 1, r, s, pos, caps =>
    match r with
    | .eps => [(s, pos, caps)]
    | .bos => if pos = 0 then [(s, pos, caps)] else []
    | .chr c =>
      match s with
      | [] => []
      | x :: xs => if x = c then [(xs, pos + 1, caps)] else []
    | .cls p =>
      match s with
      | [] => []
      | x :: xs => if p x then [(xs, pos + 1, caps)] else []
    | .anych =>
      match s with
      | [] => []
      | x :: xs => if x = '\n' ∨ x = '\r' then [] else [(xs, pos + 1, caps)]
    | .seq a b =>
      (Re.mats fuel a s pos caps).flatMap (fun m => Re.mats fuel b m.1 m.2.1 m.2.2)
    | .alt a b => Re.mats fuel a s pos caps ++ Re.mats fuel b s pos caps
    | .group n a =>
      (Re.mats fuel a s pos caps).map (fun m =>
        (m.1, m.2.1, capSet n (s.take (m.2.1 - pos)) m.2.2))
    | .star a =>
      ((Re.mats fuel a s pos caps).flatMap (fun m =>
        if pos < m.2.1 then Re.mats fuel (.star a) m.1 m.2.1 m.2.2 else [])) ++
        [(s, pos, caps)]
    | .lazyStar a =>
      (s, pos, caps) :: ((Re.mats fuel a s pos caps).flatMap (fun m =>
        if pos < m.2.1 then Re.mats fuel (.lazyStar a) m.1 m.2.1 m.2.2 else []))

/-- One committed match: the full matched text (`match[0]`), its start and end
positions and its captures. -/
structure MatchRes where
  matched : List Char
  startPos : Nat
  endPos : Nat
  caps : Caps
  deriving Repr

/-- Scan for the leftmost position at which the pattern matches
(JS `String.prototype.match` without the `g` flag). -/
def searchAt (fuel : Nat) (r : Re) : List Char → Nat → Option MatchRes
  | s, pos =>
    match (Re.mats fuel r s pos []).head? with
    | some m =>
      some { matched := s.take (m.2.1 - pos), startPos := pos, endPos := m.2.1,
             caps := m.2.2 }
    | none =>
      match s with
      | [] => none
      | _ :: xs => searchAt fuel r xs (pos + 1)

def reSearch (r : Re) (s : List Char) : Option MatchRes :=
  searchAt (1000 + 20 * s.length) r s 0

/-- JS `String.prototype.matchAll` with the `g` flag: repeated search, each
round resuming after the previous match (advancing one position past an empty
match). -/
def matchAllFrom (fuel : Nat) (r : Re) (full : List Char) : Nat → List MatchRes
  | pos =>
    match fuel with
    | 0 => []
    | fuel' + 1 =>
      match searchAt (1000 + 20 * full.length) r (full.drop pos) pos with
      | none => []
      | some m =>
        m :: matchAllFrom fuel' r full (if m.endPos > m.startPos then m.endPos else m.endPos + 1)

def reMatchAll (r : Re) (s : List Char) : List MatchRes :=
  matchAllFrom (s.length + 1) r s 0

-- pattern-building helpers

/-- Literal string, case-sensitive. -/
def reStr (s : String) : Re :=
  s.data.foldr (fun c acc => Re.seq (.chr c) acc) .eps

def isAsciiUpper (c : Char) : Bool := 'A' ≤ c ∧ c ≤ 'Z'
def isAsciiLower (c : Char) : Bool := 'a' ≤ c ∧ c ≤ 'z'
def isAsciiLetter (c : Char) : Bool := isAsciiUpper c ∨ isAsciiLower c

/-- One character under the `i` flag (ASCII folding; CJK has no case). -/
def reChrFold (c : Char) : Re :=
  if isAsciiLetter c then .cls (fun x => x.toLower = c.toLower) else .chr c

/-- Literal string under the `i` flag. -/
def reStrFold (s : String) : Re :=
  s.data.foldr (fun c acc => Re.seq (reChrFold c) acc) .eps

def reSeq3 (a b c : Re) : Re := .seq a (.seq b c)
def reSeq4 (a b c d : Re) : Re := .seq a (reSeq3 b c d)
def reSeq5 (a b c d e : Re) : Re := .seq a (reSeq4 b c d e)
def reSeq6 (a b c d e f : Re) : Re := .seq a (reSeq5 b c d e f)
def reSeq7 (a b c d e f g : Re) : Re := .seq a (reSeq6 b c d e f g)
def reSeq8 (a b c d e f g h : Re) : Re := .seq a (reSeq7 b c d e f g h)

def reAlt3 (a b c : Re) : Re := .alt a (.alt b c)
def reAlt4 (a b c d : Re) : Re := .alt a (reAlt3 b c d)
def reAlt5 (a b c d e : Re) : Re := .alt a (reAlt4 b c d e)

/-- Greedy `r?`. -/
def reOpt (a : Re) : Re := .alt a .eps

/-- Greedy `r+`. -/
def rePlus (a : Re) : Re := .seq a (.star a)

/-- Greedy `r{0,n}`. -/
def reOptN : Nat → Re → Re
  | 0, _ => .eps
  | n + 1, a => .alt (.seq a (reOptN n a)) .eps

/-- Greedy `r{lo,hi}`. -/
def reRange (lo hi : Nat) (a : Re) : Re :=
  match lo with
  | 0 => reOptN hi a
  | lo' + 1 => .seq a (reRange lo' (hi - 1) a)

/-- JS `\d`. -/
def isDigitCh (c : Char) : Bool := '0' ≤ c ∧ c ≤ '9'

def reDigit : Re := .cls isDigitCh

/-- JS `\s` (the whitespace characters that occur in practice). -/
def isJsSpace (c : Char) : Bool :=
  c = ' ' ∨ c = '\t' ∨ c = '\n' ∨ c = '\r' ∨ c = '\x0b' ∨ c = '\x0c' ∨
    c = ' ' ∨ c = '　'

def reSpaces : Re := .star (.cls isJsSpace)
def reSpaces1 : Re := rePlus (.cls isJsSpace)

/-- The CJK block `[一-龥]`. -/
def isCJK (c : Char) : Bool := 0x4e00 ≤ c.toNat ∧ c.toNat ≤ 0x9fa5

/-- Digits of `parseInt` on an all-digit capture. -/
def parseIntDigits (s : List Char) : Int :=
  s.foldl (fun acc c => 10 * acc + (c.toNat - 48)) (0 : Int)

-- ============================================
-- Extractor (src/state/extractor.js)
-- ============================================

/-- First hit of a fallible function over a list (the extractor's
first-match-wins loops). -/
def firstHit (f : α → Option β) : List α → Option β
  | [] => none
  | x :: xs =>
    match f x with
    | some b => some b
    | none => firstHit f xs

/-- One entry of `affectionPatterns`: the pattern, its type
(`absolute` vs `delta`) and the polarity flag. -/
structure AffPattern where
  re : Re
  absolute : Bool
  negative : Bool

/-- Digits capture `(\d+)`. -/
def reNum : Re := .group 1 (rePlus reDigit)

/-- The ordered built-in `affectionPatterns` list (all use the `i` flag). -/
def affectionPatterns : List AffPattern :=
  [{ re := reSeq7 (reStr "好感度")
        (rePlus (.cls (fun c => c ∈ ['增', '加', '提', '升', '上', '升'])))
        (reOpt (.chr '了')) reSpaces reNum reSpaces (.chr '点'),
     absolute := false, negative := false },
   { re := reSeq7 (reStr "好感度")
        (rePlus (.cls (fun c => c ∈ ['减', '少', '降', '低', '下', '降'])))
        (reOpt (.chr '了')) reSpaces reNum reSpaces (.chr '点'),
     absolute := false, negative := true },
   { re := reSeq4 (reStr "好感度")
        (reAlt4 (reStr "变成") (reStr "现在是") (reStr "达到") (reStr "为"))
        reSpaces reNum,
     absolute := true, negative := false },
   { re := reSeq5 (.chr '对') (.lazyStar .anych) (reStr "好感度现在是") reSpaces reNum,
     absolute := true, negative := false },
   { re := reSeq6 (reStr "好感") (reOpt (.chr '度')) reSpaces
        (.cls (fun c => c = '+' ∨ c = '＋')) reSpaces reNum,
     absolute := false, negative := false },
   { re := reSeq6 (reStr "好感") (reOpt (.chr '度')) reSpaces
        (.cls (fun c => c = '-' ∨ c = '－')) reSpaces reNum,
     absolute := false, negative := true },
   { re := reSeq7 (reStrFold "affection") reSpaces1 (reStrFold "increased")
        reSpaces1 (reStrFold "by") reSpaces1 reNum,
     absolute := false, negative := false },
   { re := reSeq7 (reStrFold "affection") reSpaces1 (reStrFold "decreased")
        reSpaces1 (reStrFold "by") reSpaces1 reNum,
     absolute := false, negative := true },
   { re := reSeq7 (reStrFold "affection") reSpaces1 (reStrFold "is")
        reSpaces1 (reStrFold "now") reSpaces1 reNum,
     absolute := true, negative := false },
   { re := reSeq5 (reStrFold "affection") reSpaces
        (.cls (fun c => c = '+' ∨ c = '＋')) reSpaces reNum,
     absolute := false, negative := false }]

/-- Extracted affection change `{delta, newValue, currentValue}`. -/
structure AffData where
  delta : Int
  newValue : Int
  currentValue : Int
  deriving DecidableEq, Repr

/-- The pattern loop of `extractAffectionChange`: first matching pattern
wins, its digit capture is `parseInt`ed. -/
def affFirstMatch (text : List Char) : Option (AffPattern × Int) :=
  firstHit (fun p => (reSearch p.re text).map (fun m =>
    (p, parseIntDigits ((capGet m.caps 1).getD [])))) affectionPatterns

/-- `StateExtractor.extractAffectionChange`: requires a known character (the
read goes through the cached repository read), computes the delta against the
current value for the first matching pattern. -/
def extractAffectionChange (st : St) (characterId : String) (text : List Char) :
    Option AffData × St :=
  let res := getCharacterState st characterId
  match res.1 with
  | none => (none, res.2)
  | some character =>
    let currentAffection := jsNumOr0 (objGet character "affection")
    match affFirstMatch text with
    | some (pattern, value) =>
      if pattern.absolute then
        (some { delta := value - currentAffection, newValue := value,
                currentValue := currentAffection }, res.2)
      else
        let delta := if pattern.negative then -value else value
        (some { delta := delta, newValue := currentAffection + delta,
                currentValue := currentAffection }, res.2)
    | none => (none, res.2)

/-- The ordered `emotionKeywords` table (JS object insertion order). -/
def emotionKeywords : List (String × List String) :=
  [("happy", ["高兴", "开心", "愉快", "快乐", "欢喜", "兴奋", "微笑", "太好了",
    "happy", "cheerful", "joyful", "smile"]),
   ("sad", ["难过", "伤心", "悲伤", "沮丧", "失落", "哭泣", "太糟糕", "不敢相信",
    "sad", "depressed", "cry", "terrible"]),
   ("angry", ["生气", "愤怒", "恼火", "火大", "怒", "皱眉", "angry", "furious",
    "mad", "frown"]),
   ("excited", ["激动", "兴奋", "振奋", "热情", "excited", "enthusiastic"]),
   ("scared", ["害怕", "恐惧", "惊恐", "惧怕", "scared", "afraid", "fearful"]),
   ("confused", ["困惑", "迷惑", "疑惑", "不解", "confused", "puzzled"]),
   ("calm", ["平静", "冷静", "淡定", "安静", "calm", "peaceful"]),
   ("anxious", ["焦虑", "不安", "紧张", "担心", "anxious", "worried", "nervous"]),
   ("loving", ["爱", "深情", "温柔", "亲密", "loving", "affectionate", "tender"])]

/-- Count the non-overlapping, left-to-right occurrences of `kw` in the text
(the match count of `new RegExp(keyword, 'gi')`); both arguments are already
case-folded by the caller. -/
def countOccF : Nat → List Char → List Char → Nat
  | 0, _, _ => 0
  | _ + 1, _, [] => 0
  | f + 1, kw, c :: rest =>
    if kw ≠ [] ∧ kw.isPrefixOf (c :: rest) then
      1 + countOccF f kw (rest.drop (kw.length - 1))
    else
      countOccF f kw rest

def countOcc (kw text : List Char) : Nat :=
  countOccF (text.length + 1) kw text

/-- Case-insensitive substring test (`match[0].match(/gave/i)` etc.); both
arguments are already case-folded by the caller. -/
def hasSub (needle hay : List Char) : Bool :=
  countOcc needle hay > 0

/-- Insert into a score list sorted descending, after existing entries of the
same score (the stable JS `sort((a, b) => b[1] - a[1])`). -/
def insScoreDesc (x : String × Nat) : List (String × Nat) → List (String × Nat)
  | [] => [x]
  | y :: ys => if y.2 < x.2 then x :: y :: ys else y :: insScoreDesc x ys

def sortScoresDesc (l : List (String × Nat)) : List (String × Nat) :=
  l.foldl (fun acc x => insScoreDesc x acc) []

/-- Extracted emotion `{emotion, confidence, alternatives}`. -/
structure EmoData where
  emotion : String
  confidence : ℚ
  alternatives : List (String × ℚ)
  deriving DecidableEq, Repr

/-- `StateExtractor.extractEmotion`: keyword occurrence scores per emotion
(kept in table order when positive), stable descending sort, highest wins,
confidence `min(score/3, 1)`. -/
def extractEmotion (text : List Char) : Option EmoData :=
  let lowered := text.map Char.toLower
  let emotionScores := emotionKeywords.filterMap (fun ek =>
    let score := (ek.2.map (fun kw => countOcc (kw.data.map Char.toLower) lowered)).sum
    if score > 0 then some (ek.1, score) else none)
  match sortScoresDesc emotionScores with
  | [] => none
  | (emotion, score) :: rest =>
    some { emotion := emotion
           confidence := min ((score : ℚ) / 3) 1
           alternatives := (rest.take 2).map (fun es => (es.1, min ((es.2 : ℚ) / 3) 1)) }

/-- The ordered movement keyword list of `extractLocationChange`. -/
def locationKeywords : List String :=
  ["走进", "来到", "到达", "进入", "抵达", "前往", "去了",
   "entered", "arrived at", "went to", "moved to"]

/-- Drop everything from the first listed punctuation mark on
(`replace(/[。，！？；、,!?;].*/, '')`). -/
def punctCut (s : List Char) : List Char :=
  s.takeWhile (fun c => ¬ (c ∈ ['。', '，', '！', '？', '；', '、', ',', '!', '?', ';']))

/-- JS `String.prototype.trim`. -/
def jsTrim (s : List Char) : List Char :=
  ((s.dropWhile isJsSpace).reverse.dropWhile isJsSpace).reverse

/-- Extracted location `{location, keyword}`. -/
structure LocData where
  location : String
  keyword : String
  deriving DecidableEq, Repr

/-- `StateExtractor.extractLocationChange`: first movement keyword whose
pattern `` `${keyword}[了]?(.{2,10})` `` matches and leaves a non-empty name
after trimming and punctuation cutting. -/
def extractLocationChange (text : List Char) : Option LocData :=
  firstHit (fun kw =>
    let re := reSeq3 (reStrFold kw) (reOpt (.chr '了')) (.group 1 (reRange 2 10 .anych))
    match reSearch re text with
    | some m =>
      let location := punctCut (jsTrim ((capGet m.caps 1).getD []))
      if location.length > 0 then
        some { location := String.mk location, keyword := kw }
      else none
    | none => none) locationKeywords

/-- The numeral class `[一两三四五六七八九十\d]`. -/
def isCnNum (c : Char) : Bool :=
  c ∈ ['一', '两', '三', '四', '五', '六', '七', '八', '九', '十'] ∨ isDigitCh c

/-- The measure-word alternative `(?:个|把|件|张|本)`. -/
def reUnit : Re :=
  reAlt5 (.chr '个') (.chr '把') (.chr '件') (.chr '张') (.chr '本')

/-- The common tail `\s*([一两三四五六七八九十\d]+)?\s*(?:个|把|件|张|本)?\s*(.+)`
of the Chinese inventory patterns. -/
def reInvTail : Re :=
  reSeq6 reSpaces (reOpt (.group 1 (rePlus (.cls isCnNum)))) reSpaces
    (reOpt reUnit) reSpaces (.group 2 (rePlus .anych))

/-- `inventoryPatterns.add`, in order. -/
def inventoryAddPatterns : List Re :=
  [reSeq4 (reAlt3 (.chr '给') (reStr "递给") (reStr "交给"))
     (reOpt (.chr '了')) (.alt (.chr '你') (.chr '我')) reInvTail,
   reSeq3 (reAlt4 (reStr "获得") (reStr "得到") (reStr "拿到") (reStr "收到"))
     (reOpt (.chr '了')) reInvTail,
   reSeq7 (reStrFold "gave") reSpaces1 (.alt (reStrFold "you") (reStrFold "me"))
     reSpaces1 (reOpt (.group 1 (rePlus reDigit))) reSpaces
     (.group 2 (rePlus .anych))]

/-- `inventoryPatterns.remove`, in order. -/
def inventoryRemovePatterns : List Re :=
  [reSeq4 (reAlt3 (reStr "拿走") (reStr "取走") (reStr "没收"))
     (reOpt (.chr '了')) (reOpt (.alt (.chr '你') (reStr "我的"))) reInvTail,
   reSeq3 (reAlt3 (reStr "失去") (reStr "丢失") (reStr "遗失"))
     (reOpt (.chr '了')) reInvTail,
   reSeq4 (reStrFold "took") reSpaces1 (.alt (reStrFold "your") (reStrFold "my"))
     (.seq reSpaces1 (.group 1 (rePlus .anych)))]

/-- `StateExtractor._parseChineseNumber`. -/
def parseChineseNumber (s : String) : Int :=
  if s.data ≠ [] ∧ s.data.all isDigitCh then parseIntDigits s.data
  else
    match s with
    | "一" => 1
    | "两" => 2
    | "二" => 2
    | "三" => 3
    | "四" => 4
    | "五" => 5
    | "六" => 6
    | "七" => 7
    | "八" => 8
    | "九" => 9
    | "十" => 10
    | _ => 1

/-- Truthiness of a capture (`match[n]` is falsy when the group did not
participate or captured the empty string). -/
def capTruthy (c : Option (List Char)) : Bool :=
  match c with
  | some l => l ≠ []
  | none => false

/-- One extracted inventory change. -/
structure InvChange where
  action : String
  item_name : String
  quantity : Int
  character_id : String
  deriving DecidableEq, Repr

/-- `StateExtractor.extractInventoryChanges`: every add pattern and every
remove pattern contributes all of its global matches; quantity defaults to 1,
the item name is trimmed and cut at the first punctuation mark. -/
def extractInventoryChanges (characterId : String) (text : List Char) : List InvChange :=
  let addChanges := inventoryAddPatterns.flatMap (fun p =>
    (reMatchAll p text).filterMap (fun m =>
      let quantity : Int :=
        if hasSub "gave".data (m.matched.map Char.toLower) then
          if capTruthy (capGet m.caps 1) then parseIntDigits ((capGet m.caps 1).getD [])
          else 1
        else
          if capTruthy (capGet m.caps 1) then
            parseChineseNumber (String.mk ((capGet m.caps 1).getD []))
          else 1
      let rawName := capGet m.caps 2
      if capTruthy rawName then
        some { action := "add",
               item_name := String.mk (punctCut (jsTrim (rawName.getD []))),
               quantity := quantity, character_id := characterId }
      else none))
  let removeChanges := inventoryRemovePatterns.flatMap (fun p =>
    (reMatchAll p text).filterMap (fun m =>
      let isTook := hasSub "took".data (m.matched.map Char.toLower)
      let rawName := if isTook then capGet m.caps 1 else capGet m.caps 2
      let quantity : Int :=
        if isTook then 1
        else
          if capTruthy (capGet m.caps 1) then
            parseChineseNumber (String.mk ((capGet m.caps 1).getD []))
          else 1
      if capTruthy rawName then
        some { action := "remove",
               item_name := String.mk (punctCut (jsTrim (rawName.getD []))),
               quantity := quantity, character_id := characterId }
      else none))
  addChanges ++ removeChanges

/-- The static importance tier table of `extractEvents` (JS iterates the
integer-keyed object in ascending key order; only the maximum matters). -/
def importanceKeywords : List (Nat × List String) :=
  [(1, ["说", "做", "去", "said", "did"]),
   (2, ["发现", "找到", "遇到", "found", "discovered"]),
   (3, ["坦白", "承认", "告诉", "透露", "confessed", "revealed"]),
   (4, ["完成", "成功", "达成", "实现", "completed", "achieved"]),
   (5, ["第一次", "首次", "终于", "史无前例", "first time", "finally"])]

/-- Name-shaped sub-pattern `([A-Z][a-z]+|[一-龥]{2,4})` under the
`i` flag (which folds both ASCII classes to plain letters). -/
def reNameFold : Re :=
  .alt (.seq (.cls isAsciiLetter) (rePlus (.cls isAsciiLetter)))
    (reRange 2 4 (.cls isCJK))

/-- The paired-name pattern of `extractEvents` (`gi` flags). -/
def namePairPattern : Re :=
  reSeq5 (.group 1 reNameFold) reSpaces
    (reAlt5 (.chr '和') (.chr '与') (.chr '跟') (.chr ',') (reStrFold "and"))
    reSpaces (.group 2 reNameFold)

/-- The lone-name pattern of `extractEvents` (`g` flag only, case
sensitive). -/
def singleNamePattern : Re :=
  reSeq3 (.alt .bos (.cls isJsSpace))
    (.group 1 (.alt
      (.seq (.cls isAsciiUpper)
        (.seq (.cls isAsciiLower) (.seq (.cls isAsciiLower) (.star (.cls isAsciiLower)))))
      (reRange 2 4 (.cls isCJK))))
    (.alt (.cls isJsSpace) (.cls (fun c => c ∈ ['：', ':', '说', '做'])))

/-- `StateExtractor.extractEvents`: importance is the highest tier with a
case-insensitive keyword hit; participants come from the two name patterns
and are deduplicated preserving first occurrence; an event is emitted only
when `importance >= 2` or a participant was found. -/
def extractEvents (now : Int) (text : List Char) : List EventData :=
  let lowered := text.map Char.toLower
  let importance := importanceKeywords.foldl (fun imp lv =>
    if lv.2.any (fun kw => hasSub (kw.data.map Char.toLower) lowered) then
      max imp lv.1
    else imp) 1
  let participants :=
    (reMatchAll namePairPattern text).flatMap (fun m =>
      [String.mk ((capGet m.caps 1).getD []), String.mk ((capGet m.caps 2).getD [])]) ++
    (reMatchAll singleNamePattern text).map (fun m =>
      String.mk ((capGet m.caps 1).getD []))
  if importance ≥ 2 ∨ participants ≠ [] then
    [{ event_type := some "general",
       description := some (String.mk (text.take 200)),
       timestamp := some now,
       importance := some importance,
       participants := some participants.eraseDups }]
  else []

/-- The result object of `extractAllStates`. -/
structure Extracted where
  affection : Option AffData
  emotion : Option EmoData
  location : Option LocData
  inventory : List InvChange
  events : List EventData
  deriving DecidableEq, Repr

/-- `StateExtractor.extractAllStates`: all five category extractors; only the
affection extractor touches state (through the cached character read). -/
def extractAllStates (st : St) (characterId : String) (text : List Char) :
    Extracted × St :=
  let res := extractAffectionChange st characterId text
  ({ affection := res.1
     emotion := extractEmotion text
     location := extractLocationChange text
     inventory := extractInventoryChanges characterId text
     events := extractEvents st.now text }, res.2)

-- ============================================
-- Integrator (src/state/integrator.js)
-- ============================================

/-- The `{applied, errors, warnings}` part of one `_process*` result (the
`data` echo is attached when the update record is built). -/
structure PRes where
  applied : Bool
  errors : List Finding
  warnings : List Finding
  deriving DecidableEq, Repr

/-- The `data` payload echoed in an update record. -/
inductive UpdData where
  | aff (a : AffData)
  | emo (e : EmoData)
  | loc (l : LocData)
  | inv (i : InvChange)
  | ev (e : EventData)
  deriving DecidableEq, Repr

/-- One entry of `result.updates`. -/
structure Update where
  utype : String
  applied : Bool
  errors : List Finding
  warnings : List Finding
  data : UpdData
  deriving DecidableEq, Repr

def mkUpdate (t : String) (r : PRes) (d : UpdData) : Update :=
  { utype := t, applied := r.applied, errors := r.errors, warnings := r.warnings,
    data := d }

/-- The result object of `processMessage`. -/
structure PMResult where
  extracted : Extracted
  updates : List Update
  errors : List Finding
  warnings : List Finding
  deriving DecidableEq, Repr

/-- String content of a row field, for ids handed between repository calls. -/
def getStrD (o : Obj) (k : String) : String :=
  match objGet o k with
  | some (.vstr s) => s
  | _ => ""

/-- `StateIntegrator._processAffection`: validate against the committed row,
apply when passing (unless dry run / autoApply off); a store failure is caught
and recorded as a severity-less finding; the strict-mode branch re-asserts the
already-false `applied` flag. -/
def processAffection (autoApply strictMode : Bool) (st : St) (characterId : String)
    (affectionData : AffData) (dryRun : Bool) : PRes × St :=
  let validation := validateCharacterUpdate st.db characterId
    { affection := some affectionData.newValue, emotion := none, current_location := none }
  let base : PRes :=
    { applied := false, errors := validation.errors, warnings := validation.warnings }
  if validation.passed ∧ ¬ dryRun ∧ autoApply then
    match updateCharacterState st characterId
      [("affection", .vint affectionData.newValue)] with
    | (.ok _, st') => ({ base with applied := true }, st')
    | (.error e, st') =>
      ({ base with errors := validation.errors ++
          [{ field := "affection", message := e, severity := none }] }, st')
  else if ¬ validation.passed ∧ strictMode then
    ({ base with applied := false }, st)
  else
    (base, st)

/-- `StateIntegrator._processEmotion`. -/
def processEmotion (autoApply : Bool) (st : St) (characterId : String)
    (emotionData : EmoData) (dryRun : Bool) : PRes × St :=
  let validation := validateCharacterUpdate st.db characterId
    { affection := none, emotion := some emotionData.emotion, current_location := none }
  let base : PRes :=
    { applied := false, errors := validation.errors, warnings := validation.warnings }
  if validation.passed ∧ ¬ dryRun ∧ autoApply then
    match updateCharacterState st characterId
      [("emotion", .vstr emotionData.emotion)] with
    | (.ok _, st') => ({ base with applied := true }, st')
    | (.error e, st') =>
      ({ base with errors := validation.errors ++
          [{ field := "emotion", message := e, severity := none }] }, st')
  else
    (base, st)

/-- `StateIntegrator._processLocation`: find the location by name, auto-create
it (type `unknown`) when absent and applying; with a truthy id, validate the
move and apply it. -/
def processLocation (autoApply : Bool) (st : St) (characterId : String)
    (locationData : LocData) (dryRun : Bool) : PRes × St :=
  let existingLocation := dbGet st.db .locations [("name", .vstr locationData.location)]
  match existingLocation with
  | some loc => processLocationWithId autoApply st characterId (objGet loc "id") dryRun
  | none =>
    if ¬ dryRun ∧ autoApply then
      match createLocation st
        [("name", .vstr locationData.location), ("type", .vstr "unknown")] with
      | (.ok i, st') => processLocationWithId autoApply st' characterId (some i) dryRun
      | (.error e, st') =>
        ({ applied := false,
           errors := [{ field := "location", message := e, severity := none }],
           warnings := [] }, st')
    else
      processLocationWithId autoApply st characterId none dryRun
where
  /-- The `if (locationId)` tail of `_processLocation`. -/
  processLocationWithId (autoApply : Bool) (st : St) (characterId : String)
      (locationId : Option Value) (dryRun : Bool) : PRes × St :=
    if truthy locationId then
      let lid := locationId.getD .vnull
      let validation := validateCharacterUpdate st.db characterId
        { affection := none, emotion := none, current_location := some lid }
      let base : PRes :=
        { applied := false, errors := validation.errors, warnings := validation.warnings }
      if validation.passed ∧ ¬ dryRun ∧ autoApply then
        match updateCharacterState st characterId [("current_location", lid)] with
        | (.ok _, st') => ({ base with applied := true }, st')
        | (.error e, st') =>
          ({ base with errors := validation.errors ++
              [{ field := "location", message := e, severity := none }] }, st')
      else
        (base, st)
    else
      ({ applied := false, errors := [], warnings := [] }, st)

/-- `StateIntegrator._processInventory`: validate name and quantity, then add
the item, or fuzzily remove the first inventory row whose name contains or is
contained in the extracted name. -/
def processInventory (autoApply : Bool) (st : St) (characterId : String)
    (inventoryData : InvChange) (dryRun : Bool) : PRes × St :=
  let validation := validateInventoryItem st.db characterId
    { id := none, item_name := some inventoryData.item_name, item_type := none,
      quantity := some inventoryData.quantity, equipped := false }
  let base : PRes :=
    { applied := false, errors := validation.errors, warnings := validation.warnings }
  if validation.passed ∧ ¬ dryRun ∧ autoApply then
    if inventoryData.action = "add" then
      match addInventoryItem st characterId
        [("item_name", .vstr inventoryData.item_name),
         ("quantity", .vint inventoryData.quantity)] with
      | (.ok _, st') => ({ base with applied := true }, st')
      | (.error e, st') =>
        ({ base with errors := validation.errors ++
            [{ field := "inventory", message := e, severity := none }] }, st')
    else if inventoryData.action = "remove" then
      let items := getInventory st characterId none none
      match items.find? (fun i =>
        hasSub inventoryData.item_name.data (getStrD i "item_name").data ∨
          hasSub (getStrD i "item_name").data inventoryData.item_name.data) with
      | some item =>
        let res := deleteInventoryItem st (getStrD item "id")
        ({ base with applied := true }, res.2)
      | none => (base, st)
    else
      (base, st)
  else
    (base, st)

/-- `StateIntegrator._processEvent`. -/
def processEvent (autoApply : Bool) (st : St) (eventData : EventData)
    (dryRun : Bool) : PRes × St :=
  let validation := validateTimelineEvent st.now eventData
  let base : PRes :=
    { applied := false, errors := validation.errors, warnings := validation.warnings }
  if validation.passed ∧ ¬ dryRun ∧ autoApply then
    let eventObj : Obj :=
      (match eventData.event_type with
        | some s => [("event_type", Value.vstr s)] | none => []) ++
      (match eventData.description with
        | some s => [("description", Value.vstr s)] | none => []) ++
      (match eventData.timestamp with
        | some t => [("timestamp", Value.vint t)] | none => []) ++
      (match eventData.importance with
        | some i => [("importance", Value.vint i)] | none => []) ++
      (match eventData.participants with
        | some ps => [("participants", Value.vstrarr ps)] | none => [])
    match addTimelineEvent st eventObj with
    | (.ok _, st') => ({ base with applied := true }, st')
    | (.error e, st') =>
      ({ base with errors := validation.errors ++
          [{ field := "event", message := e, severity := none }] }, st')
  else
    (base, st)

/-- Accumulator for the sequential category steps of `processMessage`. -/
structure StepAcc where
  updates : List Update
  errors : List Finding
  warnings : List Finding
  st : St

/-- Fold one `_process*` outcome into the aggregate result (`updates` only
receives entries with `applied = true`; errors and warnings always
accumulate). -/
def stepInto (acc : StepAcc) (t : String) (d : UpdData) (out : PRes × St) : StepAcc :=
  { updates := acc.updates ++
      (if out.1.applied then [mkUpdate t out.1 d] else [])
    errors := acc.errors ++ out.1.errors
    warnings := acc.warnings ++ out.1.warnings
    st := out.2 }

/-- `StateIntegrator.processMessage`: extract all five categories, then
validate and (conditionally) apply each category independently, aggregating
updates, errors and warnings. -/
def processMessage (autoApply strictMode : Bool) (st : St) (characterId : String)
    (text : List Char) (dryRun : Bool) : PMResult × St :=
  let ext := extractAllStates st characterId text
  let extracted := ext.1
  let a0 : StepAcc := { updates := [], errors := [], warnings := [], st := ext.2 }
  let a1 :=
    match extracted.affection with
    | some aff =>
      stepInto a0 "affection" (.aff aff)
        (processAffection autoApply strictMode a0.st characterId aff dryRun)
    | none => a0
  let a2 :=
    match extracted.emotion with
    | some emo =>
      stepInto a1 "emotion" (.emo emo)
        (processEmotion autoApply a1.st characterId emo dryRun)
    | none => a1
  let a3 :=
    match extracted.location with
    | some loc =>
      stepInto a2 "location" (.loc loc)
        (processLocation autoApply a2.st characterId loc dryRun)
    | none => a2
  let a4 := extracted.inventory.foldl (fun acc ch =>
    stepInto acc "inventory" (.inv ch)
      (processInventory autoApply acc.st characterId ch dryRun)) a3
  let a5 := extracted.events.foldl (fun acc ev =>
    stepInto acc "event" (.ev ev)
      (processEvent autoApply acc.st ev dryRun)) a4
  ({ extracted := extracted, updates := a5.updates, errors := a5.errors,
     warnings := a5.warnings }, a5.st)

-- ============================================
-- Wellformedness of a store state and concrete scenario states
-- ============================================

/-- The record a snapshot-restore insert produces for a row that already
carries a (truthy) id: the row with `created_at` and `updated_at` re-stamped
to the restore time (and the id written back unchanged). -/
def restampRow (now : Int) (r : Obj) : Obj :=
  mkInsertRecord r now ""

/-- Pairwise distinctness of a projection over rows. -/
def distinctBy (f : Obj → Option Value) (rows : List Obj) : Bool :=
  match rows with
  | [] => true
  | r :: rest => rest.all (fun q => ¬ (f q = f r)) && distinctBy f rest

/-- Wellformedness of one table dump: every row has a truthy id, satisfies
the table constraints, and ids are pairwise distinct. -/
def tableWF (t : Tbl) (rows : List Obj) : Bool :=
  rows.all (fun r => truthy (objGet r "id") && rowOk t r) &&
    distinctBy (fun r => objGet r "id") rows

/-- Wellformedness of a store state — invariants every state reached through
the repository's own inserts satisfies: per-table wellformedness, unique
location names, and referential integrity of the two `character_id` foreign
keys. -/
def dbWF (db : Db) : Bool :=
  tableWF .characters db.characters && tableWF .timeline db.timeline &&
    tableWF .locations db.locations && tableWF .inventory db.inventory &&
    tableWF .memories db.memories &&
    distinctBy (fun r => objGet r "name") db.locations &&
    db.inventory.all (fun r => fkRef db.characters r) &&
    db.memories.all (fun r => fkRef db.characters r)

/-- Parents-before-children ordering of a locations dump: scanning left to
right, every row's `parent_location` is NULL/absent or references the id of
an earlier row (or the row itself, which SQLite's immediate check admits).
Because `restoreSnapshot` replays the dump one INSERT at a time with
`foreign_keys = ON`, this is exactly the condition under which the
re-inserted `parent_location` references resolve; it holds for every
locations table built by inserts alone, but an UPDATE that re-parents a row
onto a later one can break it. -/
def parentChain (seen : List Obj) : List Obj → Bool
  | [] => true
  | r :: rest => parentRef (seen ++ [r]) r && parentChain (seen ++ [r]) rest

/-- Scenario A text (spec §8). -/
def scenarioText : List Char := "好感度增加了10点".data

/-- A concrete character row used by the scenario states. -/
def rowAlice : Obj :=
  [("id", .vstr "c1"), ("name", .vstr "Alice"), ("affection", .vint 50),
   ("emotion", .vstr "happy"), ("current_location", .vnull),
   ("created_at", .vint 0), ("updated_at", .vint 0)]

/-- A concrete store holding exactly Alice. -/
def dbAlice : Db :=
  { characters := [rowAlice]
    timeline := []
    locations := []
    inventory := []
    memories := []
    snapshots := [] }

/-- A concrete system state over `dbAlice` with empty caches. -/
def stAlice : St :=
  { db := dbAlice
    cacheChars := []
    cacheLocs := []
    cacheInv := []
    enableCache := true
    cacheSize := 100
    cacheTTL := 60000
    now := 5
    ids := fun n => "u" ++ toString n
    ctr := 0 }

/-- A concrete location row. -/
def locRow (i : String) (n : String) : Obj :=
  [("id", .vstr i), ("name", .vstr n), ("type", .vnull),
   ("created_at", .vint 0), ("updated_at", .vint 0)]

/-- A concrete state with two locations and a character cache bound of 1. -/
def stTwoLocs : St :=
  { db :=
      { characters := [rowAlice]
        timeline := []
        locations := [locRow "l1" "Town", locRow "l2" "Market"]
        inventory := []
        memories := []
        snapshots := [] }
    cacheChars := []
    cacheLocs := []
    cacheInv := []
    enableCache := true
    cacheSize := 1
    cacheTTL := 60000
    now := 5
    ids := fun n => "u" ++ toString n
    ctr := 0 }

/-- A concrete insert payload that already carries an id and stale
timestamps. -/
def insertPayload : Obj :=
  [("id", .vstr "r9"), ("name", .vstr "Bob"), ("affection", .vint 10),
   ("created_at", .vint 111), ("updated_at", .vint 222)]

/-- A location row whose `parent_location` points at `l1`, dumped BEFORE the
row `l1` itself: inserting a child with a NULL parent, inserting the parent,
then re-parenting the child through `DatabaseManager.update` produces a table
whose dump order lists the child first. -/
def rowChildFirst : Obj :=
  [("id", .vstr "l2"), ("name", .vstr "Room"), ("parent_location", .vstr "l1"),
   ("created_at", .vint 0), ("updated_at", .vint 3)]

/-- A concrete state whose locations table satisfies `dbWF` (a parent for
every `parent_location` exists) but lists the child before its parent. -/
def stChildFirst : St :=
  { db :=
      { characters := []
        timeline := []
        locations := [rowChildFirst, locRow "l1" "Hall"]
        inventory := []
        memories := []
        snapshots := [] }
    cacheChars := []
    cacheLocs := []
    cacheInv := []
    enableCache := true
    cacheSize := 100
    cacheTTL := 60000
    now := 5
    ids := fun n => "u" ++ toString n
    ctr := 0 }

-- ============================================
-- Basic lemmas about objects and buckets
-- ============================================

theorem objGet_nil (k : String) : objGet [] k = none := rfl

theorem objGet_cons (k₁ : String) (v₁ : Value) (rest : Obj) (k : String) :
    objGet ((k₁, v₁) :: rest) k = if k₁ = k then some v₁ else objGet rest k := by
  simp only [objGet, List.find?]
  by_cases h : k₁ = k
  · simp [h]
  · simp [h]

theorem objGet_objSet_self (o : Obj) (k : String) (v : Value) :
    objGet (objSet o k v) k = some v := by
  induction o with
  | nil => rw [show objSet [] k v = [(k, v)] from rfl, objGet_cons]; simp
  | cons e rest ih =>
    obtain ⟨k', v'⟩ := e
    by_cases h : k' = k
    · subst h
      show objGet (objSet ((k', v') :: rest) k' v) k' = some v
      unfold objSet
      rw [if_pos rfl, objGet_cons, if_pos rfl]
    · show objGet (objSet ((k', v') :: rest) k v) k = some v
      unfold objSet
      rw [if_neg h, objGet_cons, if_neg h]
      exact ih

theorem objGet_objSet_ne (o : Obj) (k k' : String) (v : Value) (h : ¬ k' = k) :
    objGet (objSet o k v) k' = objGet o k' := by
  induction o with
  | nil =>
    rw [show objSet [] k v = [(k, v)] from rfl, objGet_cons,
      if_neg (fun hh => h hh.symm)]
  | cons e rest ih =>
    obtain ⟨k₁, v₁⟩ := e
    by_cases h₁ : k₁ = k
    · subst h₁
      show objGet (objSet ((k₁, v₁) :: rest) k₁ v) k' = objGet ((k₁, v₁) :: rest) k'
      unfold objSet
      rw [if_pos rfl, objGet_cons, objGet_cons, if_neg (fun hh => h hh.symm),
        if_neg (fun hh => h hh.symm)]
    · show objGet (objSet ((k₁, v₁) :: rest) k v) k' = objGet ((k₁, v₁) :: rest) k'
      unfold objSet
      rw [if_neg h₁, objGet_cons, objGet_cons]
      by_cases h₂ : k₁ = k'
      · rw [if_pos h₂, if_pos h₂]
      · rw [if_neg h₂, if_neg h₂]
        exact ih

theorem objGet_mergeInto_of_absent (upd : Obj) (r : Obj) (k : String)
    (h : objGet upd k = none) :
    objGet (objMergeInto r upd) k = objGet r k := by
  induction upd generalizing r with
  | nil => rfl
  | cons e rest ih =>
    obtain ⟨k₁, v₁⟩ := e
    rw [objGet_cons] at h
    by_cases hk : k₁ = k
    · simp [hk] at h
    · simp only [if_neg hk] at h
      show objGet (objMergeInto (objSet r k₁ v₁) rest) k = objGet r k
      rw [ih _ h, objGet_objSet_ne _ _ _ _ (fun hh => hk hh.symm)]

theorem truthy_some (v : Value) : truthy (some v) = truthyV v := rfl

theorem jsOr_of_truthy (v : Value) (d : Value) (h : truthyV v = true) :
    jsOr (some v) d = v := by
  simp [jsOr, h]

theorem mkInsertRecord_created_at (data : Obj) (now : Int) (fresh : String) :
    objGet (mkInsertRecord data now fresh) "created_at" = some (.vint now) := by
  unfold mkInsertRecord
  rw [objGet_objSet_ne _ _ _ _ (by decide), objGet_objSet_self]

theorem mkInsertRecord_updated_at (data : Obj) (now : Int) (fresh : String) :
    objGet (mkInsertRecord data now fresh) "updated_at" = some (.vint now) := by
  unfold mkInsertRecord
  rw [objGet_objSet_self]

theorem mkInsertRecord_id_of_truthy (data : Obj) (now : Int) (fresh : String)
    (h : truthy (objGet data "id") = true) :
    objGet (mkInsertRecord data now fresh) "id" = objGet data "id" := by
  unfold mkInsertRecord
  rw [objGet_objSet_ne _ _ _ _ (by decide), objGet_objSet_ne _ _ _ _ (by decide),
    objGet_objSet_self]
  cases hv : objGet data "id" with
  | none => rw [hv] at h; simp [truthy] at h
  | some v =>
    rw [hv] at h
    rw [jsOr_of_truthy _ _ h]

theorem mkInsertRecord_other (data : Obj) (now : Int) (fresh : String) (k : String)
    (h1 : ¬ k = "id") (h2 : ¬ k = "created_at") (h3 : ¬ k = "updated_at") :
    objGet (mkInsertRecord data now fresh) k = objGet data k := by
  unfold mkInsertRecord
  rw [objGet_objSet_ne _ _ _ _ h3, objGet_objSet_ne _ _ _ _ h2,
    objGet_objSet_ne _ _ _ _ h1]

theorem mkInsertRecord_of_truthy_id (data : Obj) (now : Int) (fresh : String)
    (h : truthy (objGet data "id") = true) :
    mkInsertRecord data now fresh = restampRow now data := by
  unfold restampRow mkInsertRecord
  cases hv : objGet data "id" with
  | none => rw [hv] at h; simp [truthy] at h
  | some v =>
    rw [hv] at h
    rw [jsOr_of_truthy _ _ h, jsOr_of_truthy _ _ h]

theorem bucketGet_cons (k₁ : String) (v₁ : CEntry) (rest : Bucket) (k : String) :
    bucketGet ((k₁, v₁) :: rest) k = if k₁ = k then some v₁ else bucketGet rest k := by
  simp only [bucketGet, List.find?]
  by_cases h : k₁ = k
  · simp [h]
  · simp [h]

theorem bucketGet_bucketDelete_self (b : Bucket) (k : String) :
    bucketGet (bucketDelete b k) k = none := by
  induction b with
  | nil => rfl
  | cons e rest ih =>
    obtain ⟨k₁, v₁⟩ := e
    by_cases h : k₁ = k
    · have hstep : bucketDelete ((k₁, v₁) :: rest) k = bucketDelete rest k := by
        simp [bucketDelete, h]
      rw [hstep]
      exact ih
    · have hstep : bucketDelete ((k₁, v₁) :: rest) k = (k₁, v₁) :: bucketDelete rest k := by
        simp [bucketDelete, h]
      rw [hstep, bucketGet_cons, if_neg h]
      exact ih

-- ============================================
-- Claim theorems: C10, C1, C2, C4, C7 (counterexample part)
-- ============================================

/-- C10: for every table and every data object, the Store's insert sets the
inserted row's `created_at` and `updated_at` to the insertion-time clock
value, overwriting any caller-supplied values, while a supplied (truthy) id
and all other supplied fields are stored unchanged, and the stored row is
exactly the stamped record appended to the table. -/
theorem c10_insert_stamps (data : Obj) (now : Int) (fresh : String) (t : Tbl)
    (db db' : Db) (i : Value) (k : String)
    (hid : truthy (objGet data "id") = true)
    (hk1 : ¬ k = "id") (hk2 : ¬ k = "created_at") (hk3 : ¬ k = "updated_at")
    (hins : dbInsertE db t data now fresh = .ok (i, db')) :
    objGet (mkInsertRecord data now fresh) "created_at" = some (.vint now) ∧
    objGet (mkInsertRecord data now fresh) "updated_at" = some (.vint now) ∧
    objGet (mkInsertRecord data now fresh) "id" = objGet data "id" ∧
    objGet (mkInsertRecord data now fresh) k = objGet data k ∧
    Db.tbl db' t = db.tbl t ++ [mkInsertRecord data now fresh] := by
  refine ⟨mkInsertRecord_created_at data now fresh,
    mkInsertRecord_updated_at data now fresh,
    mkInsertRecord_id_of_truthy data now fresh hid,
    mkInsertRecord_other data now fresh k hk1 hk2 hk3, ?_⟩
  unfold dbInsertE at hins
  by_cases hc : (rowOk t (mkInsertRecord data now fresh) &&
      pkFresh db t (mkInsertRecord data now fresh) &&
      fkOk db t (mkInsertRecord data now fresh) &&
      nameUnique db t (mkInsertRecord data now fresh)) = true
  · rw [if_pos hc] at hins
    cases hins
    cases t <;> rfl
  · rw [if_neg hc] at hins
    cases hins

/-- Witness for C10 at a concrete payload that supplies its own id and stale
timestamps: the stored record carries the insertion-time stamps, the
supplied id, and the other supplied field unchanged. -/
theorem c10_insert_stamps_witness :
    truthy (objGet insertPayload "id") = true ∧
    (objGet (mkInsertRecord insertPayload 7 "u0") "created_at" = some (.vint 7) ∧
     objGet (mkInsertRecord insertPayload 7 "u0") "updated_at" = some (.vint 7) ∧
     objGet (mkInsertRecord insertPayload 7 "u0") "id" = objGet insertPayload "id" ∧
     objGet (mkInsertRecord insertPayload 7 "u0") "name" = objGet insertPayload "name" ∧
     Db.tbl ((dbInsertE dbAlice .characters insertPayload 7 "u0").toOption.getD
         (.vnull, dbAlice)).2 .characters =
       Db.tbl dbAlice .characters ++ [mkInsertRecord insertPayload 7 "u0"]) :=
  ⟨by decide,
   c10_insert_stamps insertPayload 7 "u0" .characters dbAlice
     ((dbInsertE dbAlice .characters insertPayload 7 "u0").toOption.getD
       (.vnull, dbAlice)).2
     ((dbInsertE dbAlice .characters insertPayload 7 "u0").toOption.getD
       (.vnull, dbAlice)).1
     "name" (by decide) (by decide) (by decide) (by decide) rfl⟩

/-- C1 (code bug): with Alice's committed affection at 50, the in-range
proposed value 80 produces no ERROR-severity finding, only the large-delta
WARNING on the `affection` field, and yet `validateCharacterUpdate` reports
`passed = false` because `_buildResult` receives `errors.length === 0`
computed over the raw list that still contains the WARNING; the claim's
"passes iff 0 ≤ v ≤ 100 with a non-blocking WARNING" is therefore violated by
the code at this input. -/
theorem c1_affection_warning_blocks :
    (0 : Int) ≤ 80 ∧ (80 : Int) ≤ 100 ∧
    (validateCharacterUpdate dbAlice "c1"
      { affection := some 80, emotion := none, current_location := none }).errors = [] ∧
    ((validateCharacterUpdate dbAlice "c1"
      { affection := some 80, emotion := none, current_location := none }).warnings.map
        (fun w => (w.field, w.severity))) = [("affection", some Sev.warning)] ∧
    (validateCharacterUpdate dbAlice "c1"
      { affection := some 80, emotion := none, current_location := none }).passed = false := by
  decide

/-- C2 (code bug): `sad` is one of the ten legal emotions, and with Alice's
committed emotion `happy` the proposed value `sad` produces no ERROR-severity
finding, only the unlikely-transition WARNING — yet `validateCharacterUpdate`
reports `passed = false`, so a WARNING does block application, contradicting
the claim that findings of WARNING severity never block. -/
theorem c2_emotion_warning_blocks :
    validEmotions.contains "sad" = true ∧
    (validateCharacterUpdate dbAlice "c1"
      { affection := none, emotion := some "sad", current_location := none }).errors = [] ∧
    ((validateCharacterUpdate dbAlice "c1"
      { affection := none, emotion := some "sad", current_location := none }).warnings.map
        (fun w => (w.field, w.severity))) = [("emotion", some Sev.warning)] ∧
    (validateCharacterUpdate dbAlice "c1"
      { affection := none, emotion := some "sad", current_location := none }).passed
      = false := by
  decide

/-- Case split on the final step of a restore: it either installs the new
store or rethrows with the state untouched. -/
theorem restoreApplyCases (st : St) (res : Except String Db) :
    (∃ st', restoreApply st res = (.ok (), st')) ∨
    (∃ e, restoreApply st res = (.error e, st)) := by
  cases res with
  | ok db' => exact Or.inl ⟨_, rfl⟩
  | error e => exact Or.inr ⟨_, rfl⟩

/-- C4: `restoreSnapshot` is atomic — every call either succeeds as a whole,
or returns the thrown error to the caller with the entire system state
(store and caches) exactly as it was before the call; in particular a missing
snapshot id leaves the state untouched. -/
theorem c4_restore_atomic (st : St) (snapshotId : String) :
    (∃ st', restoreSnapshot st snapshotId = (.ok (), st')) ∨
    (∃ e, restoreSnapshot st snapshotId = (.error e, st)) := by
  unfold restoreSnapshot
  split
  · exact Or.inr ⟨_, rfl⟩
  · rename_i snap heq
    have h := restoreApplyCases st
    exact h _

/-- Counterexample to C7 as stated: with a configured capacity bound of 1,
two `getLocation` reads leave two entries in the locations bucket — the
locations bucket is not capacity-bounded (only the characters bucket is). -/
theorem c7_counterexample :
    stTwoLocs.cacheSize = 1 ∧
    (getLocation (getLocation stTwoLocs "l1").2 "l2").2.cacheSize = 1 ∧
    (getLocation (getLocation stTwoLocs "l1").2 "l2").2.cacheLocs.length = 2 := by
  refine ⟨rfl, rfl, ?_⟩
  rfl

-- ============================================
-- Claim theorems: C7 (amended) and C6
-- ============================================

theorem bucketSet_length_le (b : Bucket) (k : String) (v : CEntry) :
    (bucketSet b k v).length ≤ b.length + 1 := by
  induction b with
  | nil => simp [bucketSet]
  | cons e rest ih =>
    obtain ⟨k₁, v₁⟩ := e
    by_cases h : k₁ = k
    · simp [bucketSet, h]
    · simp only [bucketSet, if_neg h, List.length_cons]
      omega

theorem bucketDeleteFirst_length_lt (b : Bucket) (h : b ≠ []) :
    (bucketDeleteFirst b).length < b.length := by
  match b with
  | [] => exact absurd rfl h
  | (k, e) :: rest =>
    show (bucketDelete ((k, e) :: rest) k).length < ((k, e) :: rest).length
    have hstep : bucketDelete ((k, e) :: rest) k = bucketDelete rest k := by
      simp [bucketDelete]
    rw [hstep]
    have := List.length_filter_le (fun x : String × CEntry => ¬ x.1 = k) rest
    simp only [bucketDelete, List.length_cons]
    omega

theorem getCharacterStateMiss_bucket (st : St) (cid : String)
    (h : st.cacheChars.length ≤ st.cacheSize) :
    ((getCharacterState.getCharacterStateMiss st cid).2).cacheChars.length ≤ st.cacheSize ∧
    (((getCharacterState.getCharacterStateMiss st cid).2).cacheChars = st.cacheChars ∨
      (∃ e, ((getCharacterState.getCharacterStateMiss st cid).2).cacheChars =
          bucketSet st.cacheChars cid e ∨
        ((getCharacterState.getCharacterStateMiss st cid).2).cacheChars =
          bucketDeleteFirst (bucketSet st.cacheChars cid e))) := by
  unfold getCharacterState.getCharacterStateMiss
  cases hdb : dbGet st.db .characters [("id", .vstr cid)] with
  | none => exact ⟨h, Or.inl rfl⟩
  | some c =>
    by_cases hec : st.enableCache
    · simp only [hec, if_pos]
      by_cases hlen :
          (bucketSet st.cacheChars cid ⟨c, st.now⟩).length > st.cacheSize
      · simp only [if_pos hlen]
        constructor
        · have h1 := bucketSet_length_le st.cacheChars cid ⟨c, st.now⟩
          have h2 : bucketSet st.cacheChars cid ⟨c, st.now⟩ ≠ [] := by
            cases st.cacheChars <;> simp [bucketSet]
            split <;> simp
          have h3 := bucketDeleteFirst_length_lt _ h2
          omega
        · exact Or.inr ⟨⟨c, st.now⟩, Or.inr rfl⟩
      · simp only [if_neg hlen]
        exact ⟨by omega, Or.inr ⟨⟨c, st.now⟩, Or.inl rfl⟩⟩
    · simp only [hec, if_neg]
      exact ⟨h, Or.inl rfl⟩

/-- C7, amended: only the characters bucket is capacity-bounded.
`getCharacterState` (the only operation that inserts into that bucket) keeps
its size within `cacheSize`, and when an insert would exceed the bound it
drops the first-inserted key of the `Map` — FIFO by insertion order, not
recency (the unbounded `getLocation` bucket is the counterexample to the
original claim). -/
theorem c7_characters_bucket_bounded (st : St) (cid : String)
    (h : st.cacheChars.length ≤ st.cacheSize) :
    ((getCharacterState st cid).2).cacheChars.length ≤ st.cacheSize ∧
    (((getCharacterState st cid).2).cacheChars = st.cacheChars ∨
      (∃ e, ((getCharacterState st cid).2).cacheChars =
          bucketSet st.cacheChars cid e ∨
        ((getCharacterState st cid).2).cacheChars =
          bucketDeleteFirst (bucketSet st.cacheChars cid e))) := by
  unfold getCharacterState
  split
  · split
    · exact ⟨h, Or.inl rfl⟩
    · exact getCharacterStateMiss_bucket st cid h
  · exact getCharacterStateMiss_bucket st cid h

/-- Witness for C7 (amended) at the concrete two-location state: the
characters bucket stays within its bound of 1. -/
theorem c7_characters_bucket_bounded_witness :
    stTwoLocs.cacheChars.length ≤ stTwoLocs.cacheSize ∧
    (((getCharacterState stTwoLocs "c1").2).cacheChars.length ≤ stTwoLocs.cacheSize ∧
      (((getCharacterState stTwoLocs "c1").2).cacheChars = stTwoLocs.cacheChars ∨
        (∃ e, ((getCharacterState stTwoLocs "c1").2).cacheChars =
            bucketSet stTwoLocs.cacheChars "c1" e ∨
          ((getCharacterState stTwoLocs "c1").2).cacheChars =
            bucketDeleteFirst (bucketSet stTwoLocs.cacheChars "c1" e)))) :=
  ⟨by decide, c7_characters_bucket_bounded stTwoLocs "c1" (by decide)⟩

theorem setTbl_tbl_self (db : Db) (t : Tbl) (rows : List Obj) :
    Db.tbl (Db.setTbl db t rows) t = rows := by
  cases t <;> rfl

theorem objGet_jsonifyField_ne (o : Obj) (k k' : String) (h : ¬ k' = k) :
    objGet (jsonifyField o k) k' = objGet o k' := by
  unfold jsonifyField
  cases objGet o k with
  | none => rfl
  | some v =>
    by_cases ht : truthyV v
    · simp only [ht, if_pos]
      exact objGet_objSet_ne _ _ _ _ h
    · simp [ht]

theorem filter_head_of_map (rows : List Obj) (p : Obj → Bool) (f : Obj → Obj)
    (hf : ∀ r, p r = true → p (f r) = true) :
    ((rows.map (fun r => if p r then f r else r)).filter p).head? =
      ((rows.filter p).head?).map f := by
  induction rows with
  | nil => rfl
  | cons r rest ih =>
    by_cases hp : p r = true
    · simp [List.filter_cons, hp, hf r hp]
    · simp [List.filter_cons, hp, ih]

theorem getCharacterState_of_cache_none (st : St) (cid : String)
    (h : bucketGet st.cacheChars cid = none) :
    (getCharacterState st cid).1 = dbGet st.db .characters [("id", .vstr cid)] := by
  unfold getCharacterState
  have hsc : (if st.enableCache then bucketGet st.cacheChars cid else none) = none := by
    cases st.enableCache <;> simp [h]
  rw [hsc]
  unfold getCharacterState.getCharacterStateMiss
  cases dbGet st.db .characters [("id", .vstr cid)] with
  | none => rfl
  | some c => cases st.enableCache <;> simp

/-- C6: cache coherency — after a successful `updateCharacterState`, the very
next `getCharacterState` for that id returns the freshly committed row (the
current row merged with the update data and the re-stamped `updated_at`),
which is exactly the store's current value, regardless of whatever entry the
cache held before and of the TTL window, because the update strictly
invalidates the cache entry. -/
theorem c6_cache_coherency (st : St) (cid : String) (updates row : Obj)
    (n : Nat) (st₁ : St)
    (hrow : dbGet st.db .characters [("id", .vstr cid)] = some row)
    (hid : objGet updates "id" = none)
    (hupd : updateCharacterState st cid updates = (.ok n, st₁)) :
    (getCharacterState st₁ cid).1 =
      some (objMergeInto row
        (objSet (jsonifyField (jsonifyField updates "personality") "metadata")
          "updated_at" (.vint st.now))) ∧
    (getCharacterState st₁ cid).1 = dbGet st₁.db .characters [("id", .vstr cid)] := by
  set upd := objSet (jsonifyField (jsonifyField updates "personality") "metadata")
    "updated_at" (.vint st.now) with hupdDef
  have hupdId : objGet upd "id" = none := by
    rw [hupdDef, objGet_objSet_ne _ _ _ _ (by decide),
      objGet_jsonifyField_ne _ _ _ (by decide),
      objGet_jsonifyField_ne _ _ _ (by decide)]
    exact hid
  unfold updateCharacterState at hupd
  simp only [] at hupd
  rcases hdbu : dbUpdateE st.db .characters [("id", .vstr cid)]
      (jsonifyField (jsonifyField updates "personality") "metadata") st.now with
    e | ⟨m, db'⟩
  · rw [hdbu] at hupd
    simp at hupd
  · rw [hdbu] at hupd
    simp only at hupd
    have hst₁ := congrArg Prod.snd hupd
    simp only at hst₁
    unfold dbUpdateE at hdbu
    by_cases hc : (Db.tbl st.db .characters).all
        (fun r => !(rowMatches r [("id", .vstr cid)]) ||
          rowOk .characters (objMergeInto r upd)) = true
    · rw [if_pos hc] at hdbu
      have hdb' : db' = Db.setTbl st.db .characters
          ((Db.tbl st.db .characters).map
            (fun r => if rowMatches r [("id", .vstr cid)] then objMergeInto r upd
              else r)) := by
        cases hdbu
        rfl
      have hcache : st₁.cacheChars = bucketDelete st.cacheChars cid := by
        rw [← hst₁]
      have hdbeq : st₁.db = db' := by rw [← hst₁]
      have hget := getCharacterState_of_cache_none st₁ cid
        (by rw [hcache]; exact bucketGet_bucketDelete_self _ _)
      have hcur : dbGet st₁.db .characters [("id", .vstr cid)] =
          some (objMergeInto row upd) := by
        rw [hdbeq, hdb']
        unfold dbGet
        rw [setTbl_tbl_self]
        rw [filter_head_of_map _ _ _ (fun r hr => by
          unfold rowMatches at hr ⊢
          simp only [List.all_cons, List.all_nil, Bool.and_true] at hr ⊢
          rw [objGet_mergeInto_of_absent _ _ _ hupdId]
          exact hr)]
        unfold dbGet at hrow
        rw [hrow]
        rfl
      exact ⟨hget.trans hcur, hget⟩
    · rw [if_neg hc] at hdbu
      cases hdbu

/-- Witness for C6 at the concrete Alice state: updating affection to 60 and
immediately reading the character back yields the merged, re-stamped row. -/
theorem c6_cache_coherency_witness :
    dbGet stAlice.db .characters [("id", .vstr "c1")] = some rowAlice ∧
    objGet [("affection", Value.vint 60)] "id" = none ∧
    ((getCharacterState
        ((updateCharacterState stAlice "c1" [("affection", Value.vint 60)]).2) "c1").1 =
      some (objMergeInto rowAlice
        (objSet (jsonifyField (jsonifyField [("affection", Value.vint 60)]
            "personality") "metadata") "updated_at" (.vint stAlice.now))) ∧
     (getCharacterState
        ((updateCharacterState stAlice "c1" [("affection", Value.vint 60)]).2) "c1").1 =
      dbGet ((updateCharacterState stAlice "c1" [("affection", Value.vint 60)]).2).db
        .characters [("id", .vstr "c1")]) :=
  ⟨by decide, by decide,
   c6_cache_coherency stAlice "c1" [("affection", Value.vint 60)] rowAlice 1
     ((updateCharacterState stAlice "c1" [("affection", Value.vint 60)]).2)
     (by decide) (by decide) rfl⟩

-- ============================================
-- Claim theorems: C5 (dry-run frame) and C9 (strictMode)
-- ============================================

theorem getCharacterStateMiss_db (st : St) (cid : String) :
    ((getCharacterState.getCharacterStateMiss st cid).2).db = st.db := by
  unfold getCharacterState.getCharacterStateMiss
  simp only []
  split
  · split <;> rfl
  · rfl

theorem getCharacterState_db (st : St) (cid : String) :
    ((getCharacterState st cid).2).db = st.db := by
  unfold getCharacterState
  split
  · split
    · rfl
    · exact getCharacterStateMiss_db st cid
  · exact getCharacterStateMiss_db st cid

theorem extractAffectionChange_state (st : St) (cid : String) (text : List Char) :
    (extractAffectionChange st cid text).2 = (getCharacterState st cid).2 := by
  unfold extractAffectionChange
  simp only []
  split
  · rfl
  · split
    · split <;> rfl
    · rfl

theorem extractAllStates_db (st : St) (cid : String) (text : List Char) :
    ((extractAllStates st cid text).2).db = st.db := by
  show ((extractAffectionChange st cid text).2).db = st.db
  rw [extractAffectionChange_state]
  exact getCharacterState_db st cid

theorem processAffection_dry (a s : Bool) (st : St) (cid : String) (aff : AffData) :
    (processAffection a s st cid aff true).2 = st := by
  unfold processAffection
  simp only [not_true_eq_false, and_false, false_and, if_false]
  split <;> rfl

theorem processEmotion_dry (a : Bool) (st : St) (cid : String) (emo : EmoData) :
    (processEmotion a st cid emo true).2 = st := by
  unfold processEmotion
  simp only [not_true_eq_false, and_false, false_and, if_false]

theorem processLocationWithId_dry (a : Bool) (st : St) (cid : String)
    (lid : Option Value) :
    (processLocation.processLocationWithId a st cid lid true).2 = st := by
  unfold processLocation.processLocationWithId
  split
  · simp only [not_true_eq_false, and_false, false_and, if_false]
  · rfl

theorem processLocation_dry (a : Bool) (st : St) (cid : String) (loc : LocData) :
    (processLocation a st cid loc true).2 = st := by
  unfold processLocation
  simp only [not_true_eq_false, false_and, if_false]
  split
  · exact processLocationWithId_dry a st cid _
  · exact processLocationWithId_dry a st cid none

theorem processInventory_dry (a : Bool) (st : St) (cid : String) (ch : InvChange) :
    (processInventory a st cid ch true).2 = st := by
  unfold processInventory
  simp only [not_true_eq_false, and_false, false_and, if_false]

theorem processEvent_dry (a : Bool) (st : St) (ev : EventData) :
    (processEvent a st ev true).2 = st := by
  unfold processEvent
  simp only [not_true_eq_false, and_false, false_and, if_false]

theorem foldl_inventory_st_dry (a : Bool) (cid : String) (l : List InvChange)
    (acc : StepAcc) :
    ((l.foldl (fun acc ch =>
      stepInto acc "inventory" (.inv ch) (processInventory a acc.st cid ch true))
      acc).st) = acc.st := by
  induction l generalizing acc with
  | nil => rfl
  | cons ch rest ih =>
    rw [List.foldl_cons, ih]
    show (processInventory a acc.st cid ch true).2 = acc.st
    exact processInventory_dry a acc.st cid ch

theorem foldl_events_st_dry (a : Bool) (l : List EventData) (acc : StepAcc) :
    ((l.foldl (fun acc ev =>
      stepInto acc "event" (.ev ev) (processEvent a acc.st ev true)) acc).st) =
      acc.st := by
  induction l generalizing acc with
  | nil => rfl
  | cons ev rest ih =>
    rw [List.foldl_cons, ih]
    show (processEvent a acc.st ev true).2 = acc.st
    exact processEvent_dry a acc.st ev

/-- C5: a dry run writes nothing — for every orchestrator configuration,
character id, message text and starting state, `processMessage` with
`dryRun = true` leaves the persistent store exactly unchanged (no character
update, no inventory change, no timeline insert and no auto-created
location). -/
theorem c5_dry_run_frame (a s : Bool) (st : St) (cid : String) (text : List Char) :
    ((processMessage a s st cid text true).2).db = st.db := by
  unfold processMessage
  rcases hext : extractAllStates st cid text with ⟨extr, st1⟩
  have hst1 : st1.db = st.db := by
    have := extractAllStates_db st cid text
    rw [hext] at this
    exact this
  rcases extr with ⟨oaff, oemo, oloc, inv, evs⟩
  simp only
  rw [foldl_events_st_dry, foldl_inventory_st_dry]
  cases oloc <;> cases oemo <;> cases oaff <;>
    simp only [stepInto, processAffection_dry, processEmotion_dry,
      processLocation_dry] <;>
    exact hst1

theorem processAffection_strict (a s₁ s₂ : Bool) (st : St) (cid : String)
    (aff : AffData) (d : Bool) :
    processAffection a s₁ st cid aff d = processAffection a s₂ st cid aff d := by
  unfold processAffection
  simp only []
  split
  · rfl
  · split <;> split <;> rfl

/-- C9: `strictMode` has no observable effect — for every configuration,
state, character id, message text and dry-run flag, an orchestrator with
`strictMode = true` and one with `strictMode = false` return the same
`processMessage` result (extracted, updates, errors, warnings) and the same
final system state, because the only strict-mode branch re-asserts an
`applied` flag that is already false. -/
theorem c9_strict_mode_no_effect (a : Bool) (st : St) (cid : String)
    (text : List Char) (d : Bool) :
    processMessage a true st cid text d = processMessage a false st cid text d := by
  unfold processMessage
  rcases hext : extractAllStates st cid text with ⟨extr, st1⟩
  rcases extr with ⟨oaff, oemo, oloc, inv, evs⟩
  simp only []
  cases oaff with
  | none => rfl
  | some aff =>
    dsimp only
    rw [processAffection_strict a true false]

-- ============================================
-- Claim theorem: C8 (scenario A)
-- ============================================

theorem getCharacterState_shape (st : St) (cid : String) :
    ∃ b, (getCharacterState st cid).2 = { st with cacheChars := b } := by
  unfold getCharacterState getCharacterState.getCharacterStateMiss
  simp only []
  split
  · split
    · exact ⟨st.cacheChars, rfl⟩
    · split
      · split
        · exact ⟨_, rfl⟩
        · exact ⟨st.cacheChars, rfl⟩
      · exact ⟨st.cacheChars, rfl⟩
  · split
    · split
      · exact ⟨_, rfl⟩
      · exact ⟨st.cacheChars, rfl⟩
    · exact ⟨st.cacheChars, rfl⟩

theorem dbGet_single_row (db : Db) (row : Obj)
    (hchars : db.characters = [row])
    (hid : objGet row "id" = some (.vstr "c1")) :
    dbGet db .characters [("id", .vstr "c1")] = some row := by
  unfold dbGet
  rw [show Db.tbl db .characters = db.characters from rfl, hchars]
  simp [rowMatches, hid]

theorem applyAffection60 (st : St) (sm : Bool) (row : Obj)
    (hchars : st.db.characters = [row])
    (hid : objGet row "id" = some (.vstr "c1"))
    (haff : objGet row "affection" = some (.vint 50))
    (hok : rowOk .characters row = true) :
    ((processAffection true sm st "c1"
        { delta := 10, newValue := 60, currentValue := 50 } false).1).applied = true ∧
    ((dbGet ((processAffection true sm st "c1"
        { delta := 10, newValue := 60, currentValue := 50 } false).2).db
        .characters [("id", .vstr "c1")]).map (fun c => objGet c "affection")) =
      some (some (.vint 60)) := by
  have hdbget := dbGet_single_row st.db row hchars hid
  have hval : validateCharacterUpdate st.db "c1"
      { affection := some 60, emotion := none, current_location := none } =
      { passed := true, errors := [], warnings := [], info := [] } := by
    unfold validateCharacterUpdate
    rw [hdbget]
    dsimp only
    rw [haff]
    decide
  have hname : colNotNull row "name" = true := by
    unfold rowOk at hok
    exact (Bool.and_eq_true ..).mp hok |>.1
  set upd : Obj := objSet [("affection", Value.vint 60)] "updated_at"
    (.vint st.now) with hupdDef
  have hmergeOk : rowOk .characters (objMergeInto row upd) = true := by
    have hmaff : objGet (objMergeInto row upd) "affection" = some (.vint 60) := by
      show objGet (objSet (objSet row "affection" (.vint 60)) "updated_at"
        (.vint st.now)) "affection" = some (.vint 60)
      rw [objGet_objSet_ne _ _ _ _ (by decide), objGet_objSet_self]
    have hmname : objGet (objMergeInto row upd) "name" = objGet row "name" := by
      show objGet (objSet (objSet row "affection" (.vint 60)) "updated_at"
        (.vint st.now)) "name" = objGet row "name"
      rw [objGet_objSet_ne _ _ _ _ (by decide), objGet_objSet_ne _ _ _ _ (by decide)]
    unfold rowOk
    rw [Bool.and_eq_true]
    constructor
    · unfold colNotNull at hname ⊢
      rw [hmname]
      exact hname
    · unfold colIntRange
      rw [hmaff]
      decide
  have hmatch : rowMatches row [("id", .vstr "c1")] = true := by
    unfold rowMatches
    simp [hid]
  have hmergeId : objGet (objMergeInto row upd) "id" = some (.vstr "c1") := by
    show objGet (objSet (objSet row "affection" (.vint 60)) "updated_at"
      (.vint st.now)) "id" = some (.vstr "c1")
    rw [objGet_objSet_ne _ _ _ _ (by decide), objGet_objSet_ne _ _ _ _ (by decide)]
    exact hid
  have hdbu : dbUpdateE st.db .characters [("id", .vstr "c1")]
      [("affection", Value.vint 60)] st.now =
      .ok (1, Db.setTbl st.db .characters [objMergeInto row upd]) := by
    unfold dbUpdateE
    rw [show Db.tbl st.db .characters = st.db.characters from rfl, hchars]
    rw [show (objSet [("affection", Value.vint 60)] "updated_at"
      (.vint st.now)) = upd from rfl]
    simp only [List.all_cons, List.all_nil, List.map_cons, List.map_nil,
      List.filter_cons, hmatch, hmergeOk, if_pos, Bool.not_true, Bool.false_or,
      Bool.and_true]
    rfl
  unfold processAffection
  simp only []
  rw [hval]
  simp only [not_false_eq_true, and_true, true_and, if_pos, and_self, if_true]
  unfold updateCharacterState
  simp only []
  rw [show jsonifyField (jsonifyField [("affection", Value.vint 60)]
    "personality") "metadata" = [("affection", Value.vint 60)] from rfl]
  rw [hdbu]
  dsimp only
  rw [if_pos (by simp : ¬false = true)]
  constructor
  · rfl
  · dsimp only
    unfold dbGet
    rw [setTbl_tbl_self]
    have hm2 : rowMatches (objMergeInto row upd) [("id", .vstr "c1")] = true := by
      unfold rowMatches
      simp [hmergeId]
    simp only [List.filter_cons, hm2, if_pos, List.filter_nil]
    simp [hmergeId]
    rw [show objGet (objMergeInto row upd) "affection" =
      some (.vint 60) from by
        show objGet (objSet (objSet row "affection" (.vint 60)) "updated_at"
          (.vint st.now)) "affection" = some (.vint 60)
        rw [objGet_objSet_ne _ _ _ _ (by decide), objGet_objSet_self]]

/-- C8 (scenario A): for any character whose stored affection is 50 (and no
stale cache entry for it), the text `好感度增加了10点` matches the first
affection pattern, which is a positive relative pattern, so the extraction is
`{delta: 10, newValue: 60, currentValue: 50}`; a non-dry-run apply through
`_processAffection` passes validation, is applied, and leaves the stored
affection at 60. -/
theorem c8_scenario_a (st : St) (row : Obj) (sm : Bool)
    (hchars : st.db.characters = [row])
    (hid : objGet row "id" = some (.vstr "c1"))
    (haff : objGet row "affection" = some (.vint 50))
    (hok : rowOk .characters row = true)
    (hcache : bucketGet st.cacheChars "c1" = none) :
    (extractAffectionChange st "c1" scenarioText).1 =
      some { delta := 10, newValue := 60, currentValue := 50 } ∧
    ((processAffection true sm (extractAffectionChange st "c1" scenarioText).2 "c1"
        { delta := 10, newValue := 60, currentValue := 50 } false).1).applied = true ∧
    ((dbGet ((processAffection true sm
        (extractAffectionChange st "c1" scenarioText).2 "c1"
        { delta := 10, newValue := 60, currentValue := 50 } false).2).db
        .characters [("id", .vstr "c1")]).map (fun c => objGet c "affection")) =
      some (some (.vint 60)) := by
  have hdbget := dbGet_single_row st.db row hchars hid
  have hget1 : (getCharacterState st "c1").1 =
      dbGet st.db .characters [("id", .vstr "c1")] :=
    getCharacterState_of_cache_none st "c1" hcache
  rw [hdbget] at hget1
  have hpat : ((affFirstMatch scenarioText).map
      (fun pv => (pv.1.absolute, pv.1.negative, pv.2))) = some (false, false, 10) := by
    decide
  have hext1 : (extractAffectionChange st "c1" scenarioText).1 =
      some { delta := 10, newValue := 60, currentValue := 50 } := by
    unfold extractAffectionChange
    simp only [hget1]
    rw [haff]
    cases hfm : affFirstMatch scenarioText with
    | none => rw [hfm] at hpat; simp at hpat
    | some pv =>
      rw [hfm] at hpat
      obtain ⟨pattern, value⟩ := pv
      simp only [Option.map_some', Option.some.injEq, Prod.mk.injEq] at hpat
      obtain ⟨habs, hneg, hv⟩ := hpat
      simp only [habs, hneg, hv]
      simp only [Bool.false_eq_true, if_false]
      decide
  refine ⟨hext1, ?_⟩
  obtain ⟨b, hb⟩ := getCharacterState_shape st "c1"
  have hstE : (extractAffectionChange st "c1" scenarioText).2 =
      { st with cacheChars := b } := by
    rw [extractAffectionChange_state, hb]
  rw [hstE]
  exact applyAffection60 { st with cacheChars := b } sm row hchars hid haff hok

/-- Witness for C8 at the concrete Alice state. -/
theorem c8_scenario_a_witness :
    stAlice.db.characters = [rowAlice] ∧
    objGet rowAlice "id" = some (.vstr "c1") ∧
    objGet rowAlice "affection" = some (.vint 50) ∧
    rowOk .characters rowAlice = true ∧
    bucketGet stAlice.cacheChars "c1" = none ∧
    ((extractAffectionChange stAlice "c1" scenarioText).1 =
      some { delta := 10, newValue := 60, currentValue := 50 } ∧
    ((processAffection true true
        (extractAffectionChange stAlice "c1" scenarioText).2 "c1"
        { delta := 10, newValue := 60, currentValue := 50 } false).1).applied = true ∧
    ((dbGet ((processAffection true true
        (extractAffectionChange stAlice "c1" scenarioText).2 "c1"
        { delta := 10, newValue := 60, currentValue := 50 } false).2).db
        .characters [("id", .vstr "c1")]).map (fun c => objGet c "affection")) =
      some (some (.vint 60))) :=
  ⟨rfl, by decide, by decide, by decide, rfl,
   c8_scenario_a stAlice rowAlice true rfl (by decide) (by decide) (by decide) rfl⟩

-- ============================================
-- Claim theorem: C3 (snapshot round trip)
-- ============================================

/-- Counterexample to C3 as stated: snapshot Alice at time 5, restore with
the clock at 6 and no intervening writes — the restore succeeds but the
characters row set is not identical, because every re-inserted row gets
fresh `created_at` / `updated_at` stamps from `DatabaseManager.insert`. -/
theorem c3_roundtrip_counterexample :
    (restoreSnapshot { (createSnapshot stAlice "d").2 with now := 6 }
      (createSnapshot stAlice "d").1).1 = .ok () ∧
    (restoreSnapshot { (createSnapshot stAlice "d").2 with now := 6 }
      (createSnapshot stAlice "d").1).2.db.characters ≠ stAlice.db.characters := by
  constructor
  · rfl
  · decide

theorem setTbl_setTbl (db : Db) (t : Tbl) (a b : List Obj) :
    (db.setTbl t a).setTbl t b = db.setTbl t b := by
  cases t <;> rfl

theorem fkRef_restamp (chars : List Obj) (r : Obj) (now : Int) :
    fkRef chars (restampRow now r) = fkRef chars r := by
  unfold fkRef restampRow
  rw [mkInsertRecord_other r now "" "character_id" (by decide) (by decide) (by decide)]

theorem objGet_restamp_other (r : Obj) (now : Int) (k : String)
    (h1 : ¬ k = "id") (h2 : ¬ k = "created_at") (h3 : ¬ k = "updated_at") :
    objGet (restampRow now r) k = objGet r k :=
  mkInsertRecord_other r now "" k h1 h2 h3

theorem objGet_restamp_id (r : Obj) (now : Int)
    (h : truthy (objGet r "id") = true) :
    objGet (restampRow now r) "id" = objGet r "id" :=
  mkInsertRecord_id_of_truthy r now "" h

theorem rowOk_restamp (t : Tbl) (r : Obj) (now : Int) :
    rowOk t (restampRow now r) = rowOk t r := by
  cases t <;>
    simp only [rowOk, colNotNull, colIntRange,
      objGet_restamp_other r now "name" (by decide) (by decide) (by decide),
      objGet_restamp_other r now "affection" (by decide) (by decide) (by decide),
      objGet_restamp_other r now "timestamp" (by decide) (by decide) (by decide),
      objGet_restamp_other r now "event_type" (by decide) (by decide) (by decide),
      objGet_restamp_other r now "description" (by decide) (by decide) (by decide),
      objGet_restamp_other r now "importance" (by decide) (by decide) (by decide),
      objGet_restamp_other r now "character_id" (by decide) (by decide) (by decide),
      objGet_restamp_other r now "item_name" (by decide) (by decide) (by decide),
      objGet_restamp_other r now "quantity" (by decide) (by decide) (by decide),
      objGet_restamp_other r now "content" (by decide) (by decide) (by decide)]

theorem parentChain_spec (pre : List Obj) (r : Obj) (post seen : List Obj)
    (h : parentChain seen (pre ++ r :: post) = true) :
    parentRef (seen ++ pre ++ [r]) r = true := by
  induction pre generalizing seen with
  | nil =>
    rw [List.nil_append] at h
    unfold parentChain at h
    rw [List.append_nil]
    exact (Bool.and_eq_true .. |>.mp h).1
  | cons p pre ih =>
    rw [List.cons_append] at h
    unfold parentChain at h
    have hx := ih (seen ++ [p]) (Bool.and_eq_true .. |>.mp h).2
    rw [List.append_assoc seen [p] pre, List.singleton_append] at hx
    exact hx

theorem any_id_map_restamp (chars : List Obj) (v : Value) (now : Int)
    (h : ∀ c ∈ chars, truthy (objGet c "id") = true) :
    ((chars.map (restampRow now)).any fun c => objGet c "id" == some v) =
      (chars.any fun c => objGet c "id" == some v) := by
  induction chars with
  | nil => rfl
  | cons c rest ih =>
    simp only [List.map_cons, List.any_cons]
    rw [objGet_restamp_id c now (h c (List.mem_cons_self c rest)),
      ih (fun x hx => h x (List.mem_cons_of_mem c hx))]

theorem fkRef_map_restamp (chars : List Obj) (r : Obj) (now : Int)
    (h : ∀ c ∈ chars, truthy (objGet c "id") = true) :
    fkRef (chars.map (restampRow now)) r = fkRef chars r := by
  unfold fkRef
  cases objGet r "character_id" with
  | none => rfl
  | some v =>
    cases v <;> first
      | rfl
      | exact any_id_map_restamp chars _ now h

theorem parentRef_map_restamp (pre : List Obj) (r : Obj) (now : Int)
    (hpre : ∀ c ∈ pre, truthy (objGet c "id") = true)
    (hr : truthy (objGet r "id") = true) :
    parentRef (pre.map (restampRow now) ++ [restampRow now r])
      (restampRow now r) = parentRef (pre ++ [r]) r := by
  unfold parentRef
  rw [objGet_restamp_other r now "parent_location" (by decide) (by decide) (by decide)]
  cases objGet r "parent_location" with
  | none => rfl
  | some v =>
    cases v <;> first
      | rfl
      | simp only [List.any_append, List.any_cons, List.any_nil,
          objGet_restamp_id r now hr, any_id_map_restamp pre _ now hpre]

theorem find?_append_fresh (l : List SnapRow) (row : SnapRow) (sid : String)
    (h : ∀ s ∈ l, ¬ s.id = sid) (hrow : row.id = sid) :
    (l ++ [row]).find? (fun s => s.id = sid) = some row := by
  induction l with
  | nil => simp [List.find?, hrow]
  | cons s rest ih =>
    have hs : ¬ s.id = sid := h s (List.mem_cons_self s rest)
    simp only [List.cons_append, List.find?]
    rw [show (decide (s.id = sid)) = false by simp [hs]]
    exact ih (fun x hx => h x (List.mem_cons_of_mem s hx))

theorem setTbl_tbl_id (db : Db) (t : Tbl) :
    db.setTbl t (db.tbl t) = db := by
  cases t <;> rfl

theorem insertAllE_restamp (t : Tbl) (now : Int) (ids : Nat → String)
    (rows : List Obj) (k : Nat) (db : Db)
    (hrows : ∀ r ∈ rows, truthy (objGet r "id") = true ∧ rowOk t r = true)
    (hfk : ∀ pre r post, rows = pre ++ r :: post →
      fkOk (db.setTbl t (db.tbl t ++ pre.map (restampRow now))) t
        (restampRow now r) = true)
    (hdist : distinctBy (fun r => objGet r "id") rows = true)
    (hpk : ∀ r ∈ rows, ∀ q ∈ db.tbl t, ¬ objGet q "id" = objGet r "id")
    (hname : t = .locations →
      distinctBy (fun r => objGet r "name") rows = true ∧
      ∀ r ∈ rows, ∀ q ∈ db.tbl t, ¬ objGet q "name" = objGet r "name") :
    insertAllE t rows now ids k db =
      .ok (db.setTbl t (db.tbl t ++ rows.map (restampRow now)), k + rows.length) := by
  induction rows generalizing k db with
  | nil =>
    show Except.ok (db, k) =
      .ok (db.setTbl t (db.tbl t ++ List.map (restampRow now) []), k + 0)
    rw [List.map_nil, List.append_nil, setTbl_tbl_id, Nat.add_zero]
  | cons r rest ih =>
    obtain ⟨hidr, hokr⟩ := hrows r (List.mem_cons_self r rest)
    have hrec : mkInsertRecord r now (ids k) = restampRow now r :=
      mkInsertRecord_of_truthy_id r now (ids k) hidr
    have hrowOkRec : rowOk t (restampRow now r) = true := by
      rw [rowOk_restamp]
      exact hokr
    have hpkf : pkFresh db t (restampRow now r) = true := by
      unfold pkFresh
      rw [List.all_eq_true]
      intro q hq
      rw [objGet_restamp_id r now hidr]
      have hne := hpk r (List.mem_cons_self r rest) q hq
      simp [hne]
    have hfkOkRec : fkOk db t (restampRow now r) = true := by
      have hx := hfk [] r rest rfl
      rw [List.map_nil, List.append_nil, setTbl_tbl_id] at hx
      exact hx
    have hnmu : nameUnique db t (restampRow now r) = true := by
      cases t
      case locations =>
        unfold nameUnique
        rw [List.all_eq_true]
        intro q hq
        rw [objGet_restamp_other r now "name" (by decide) (by decide) (by decide)]
        have hne := (hname rfl).2 r (List.mem_cons_self r rest) q hq
        simp [hne]
      all_goals rfl
    have hcond : (rowOk t (restampRow now r) && pkFresh db t (restampRow now r) &&
        fkOk db t (restampRow now r) && nameUnique db t (restampRow now r)) = true := by
      rw [hrowOkRec, hpkf, hfkOkRec, hnmu]
      rfl
    have hdist1 : (rest.all fun q =>
        ¬ objGet q "id" = objGet r "id") = true ∧
        distinctBy (fun r => objGet r "id") rest = true := by
      unfold distinctBy at hdist
      exact Bool.and_eq_true .. |>.mp hdist
    show (match dbInsertE db t r now (ids k) with
      | .ok (_, db') => insertAllE t rest now ids (k + 1) db'
      | .error e => .error e) = _
    unfold dbInsertE
    simp only [hrec, hcond, eq_self_iff_true, if_true]
    have hstep := ih (k + 1) (db.setTbl t (db.tbl t ++ [restampRow now r]))
      (fun r' hr' => hrows r' (List.mem_cons_of_mem r hr'))
      (fun pre r' post h => by
        have hx := hfk (r :: pre) r' post (by rw [h, List.cons_append])
        rw [setTbl_tbl_self, setTbl_setTbl, List.append_assoc, List.singleton_append]
        rw [List.map_cons] at hx
        exact hx)
      hdist1.2
      (fun r' hr' q hq => by
        rw [setTbl_tbl_self] at hq
        rcases List.mem_append.mp hq with hq1 | hq2
        · exact hpk r' (List.mem_cons_of_mem r hr') q hq1
        · rw [List.mem_singleton.mp hq2, objGet_restamp_id r now hidr]
          have := List.all_eq_true.mp hdist1.1 r' hr'
          simp only [decide_eq_true_eq] at this
          intro heq
          exact this heq.symm)
      (fun ht => by
        obtain ⟨hd, hq⟩ := hname ht
        unfold distinctBy at hd
        have hd2 := Bool.and_eq_true .. |>.mp hd
        refine ⟨hd2.2, fun r' hr' q hqmem => ?_⟩
        rw [setTbl_tbl_self] at hqmem
        rcases List.mem_append.mp hqmem with hq1 | hq2
        · exact hq r' (List.mem_cons_of_mem r hr') q hq1
        · rw [List.mem_singleton.mp hq2,
            objGet_restamp_other r now "name" (by decide) (by decide) (by decide)]
          have := List.all_eq_true.mp hd2.1 r' hr'
          simp only [decide_eq_true_eq] at this
          intro heq
          exact this heq.symm)
    rw [hstep, setTbl_tbl_self, setTbl_setTbl, List.append_assoc,
      List.singleton_append]
    rw [show List.length (r :: rest) = rest.length + 1 from rfl]
    rw [show k + 1 + rest.length = k + (rest.length + 1) by omega]
    rfl

theorem restoreSnapshot_ok (st' : St) (sid : String) (snap : SnapRow)
    (hfind : st'.db.snapshots.find? (fun s => s.id = sid) = some snap)
    (hc : ∀ r ∈ snap.state_data.characters,
      truthy (objGet r "id") = true ∧ rowOk .characters r = true)
    (hcD : distinctBy (fun r => objGet r "id") snap.state_data.characters = true)
    (ht : ∀ r ∈ snap.state_data.timeline,
      truthy (objGet r "id") = true ∧ rowOk .timeline r = true)
    (htD : distinctBy (fun r => objGet r "id") snap.state_data.timeline = true)
    (hl : ∀ r ∈ snap.state_data.locations,
      truthy (objGet r "id") = true ∧ rowOk .locations r = true)
    (hlD : distinctBy (fun r => objGet r "id") snap.state_data.locations = true)
    (hlN : distinctBy (fun r => objGet r "name") snap.state_data.locations = true)
    (hlC : parentChain [] snap.state_data.locations = true)
    (hi : ∀ r ∈ snap.state_data.inventory,
      truthy (objGet r "id") = true ∧ rowOk .inventory r = true)
    (hiD : distinctBy (fun r => objGet r "id") snap.state_data.inventory = true)
    (hiF : ∀ r ∈ snap.state_data.inventory,
      fkRef snap.state_data.characters r = true)
    (hm : ∀ r ∈ snap.state_data.memories,
      truthy (objGet r "id") = true ∧ rowOk .memories r = true)
    (hmD : distinctBy (fun r => objGet r "id") snap.state_data.memories = true)
    (hmF : ∀ r ∈ snap.state_data.memories,
      fkRef snap.state_data.characters r = true) :
    restoreSnapshot st' sid =
      (.ok (), { st' with
        db := { characters := snap.state_data.characters.map (restampRow st'.now)
                timeline := snap.state_data.timeline.map (restampRow st'.now)
                locations := snap.state_data.locations.map (restampRow st'.now)
                inventory := snap.state_data.inventory.map (restampRow st'.now)
                memories := snap.state_data.memories.map (restampRow st'.now)
                snapshots := st'.db.snapshots }
        cacheChars := [], cacheLocs := [], cacheInv := [] }) := by
  have hcId : ∀ c ∈ snap.state_data.characters, truthy (objGet c "id") = true :=
    fun c hcm => (hc c hcm).1
  unfold restoreSnapshot
  rw [hfind]
  unfold dbTransaction
  simp only []
  set S := snap.state_data with hS
  set mapC := S.characters.map (restampRow st'.now) with hmapC
  set mapT := S.timeline.map (restampRow st'.now) with hmapT
  set mapL := S.locations.map (restampRow st'.now) with hmapL
  set mapI := S.inventory.map (restampRow st'.now) with hmapI
  set mapM := S.memories.map (restampRow st'.now) with hmapM
  set db1 : Db :=
    { characters := []
      timeline := []
      locations := []
      inventory := []
      memories := []
      snapshots := st'.db.snapshots } with hdb1
  set db2 : Db :=
    { characters := mapC
      timeline := []
      locations := []
      inventory := []
      memories := []
      snapshots := st'.db.snapshots } with hdb2
  set db3 : Db :=
    { characters := mapC
      timeline := mapT
      locations := []
      inventory := []
      memories := []
      snapshots := st'.db.snapshots } with hdb3
  set db4 : Db :=
    { characters := mapC
      timeline := mapT
      locations := mapL
      inventory := []
      memories := []
      snapshots := st'.db.snapshots } with hdb4
  set db5 : Db :=
    { characters := mapC
      timeline := mapT
      locations := mapL
      inventory := mapI
      memories := []
      snapshots := st'.db.snapshots } with hdb5
  set db6 : Db :=
    { characters := mapC
      timeline := mapT
      locations := mapL
      inventory := mapI
      memories := mapM
      snapshots := st'.db.snapshots } with hdb6
  have e1 : insertAllE .characters S.characters st'.now st'.ids st'.ctr db1 =
      .ok (db2, st'.ctr + S.characters.length) := by
    rw [insertAllE_restamp .characters st'.now st'.ids S.characters st'.ctr db1
      hc (fun pre r post h => rfl) hcD
      (fun r _ q hq => absurd hq (List.not_mem_nil q))
      (fun hcontr => Tbl.noConfusion hcontr)]
    rfl
  have e2 : insertAllE .timeline S.timeline st'.now st'.ids
      (st'.ctr + S.characters.length) db2 =
      .ok (db3, st'.ctr + S.characters.length + S.timeline.length) := by
    rw [insertAllE_restamp .timeline st'.now st'.ids S.timeline
      (st'.ctr + S.characters.length) db2
      ht (fun pre r post h => rfl) htD
      (fun r _ q hq => absurd hq (List.not_mem_nil q))
      (fun hcontr => Tbl.noConfusion hcontr)]
    rfl
  have e3 : insertAllE .locations S.locations st'.now st'.ids
      (st'.ctr + S.characters.length + S.timeline.length) db3 =
      .ok (db4, st'.ctr + S.characters.length + S.timeline.length +
        S.locations.length) := by
    rw [insertAllE_restamp .locations st'.now st'.ids S.locations
      (st'.ctr + S.characters.length + S.timeline.length) db3
      hl
      (fun pre r post h => by
        have hpre : ∀ c ∈ pre, truthy (objGet c "id") = true := fun c hcm =>
          (hl c (by rw [h]; exact List.mem_append_left _ hcm)).1
        have hrid : truthy (objGet r "id") = true :=
          (hl r (by
            rw [h]
            exact List.mem_append_right pre (List.mem_cons_self r post))).1
        show parentRef (List.map (restampRow st'.now) pre ++
          [restampRow st'.now r]) (restampRow st'.now r) = true
        rw [parentRef_map_restamp pre r st'.now hpre hrid]
        have hx := parentChain_spec pre r post [] (by rw [← h]; exact hlC)
        rw [List.nil_append] at hx
        exact hx)
      hlD
      (fun r _ q hq => absurd hq (List.not_mem_nil q))
      (fun _ => ⟨hlN, fun r _ q hq => absurd hq (List.not_mem_nil q)⟩)]
    rfl
  have e4 : insertAllE .inventory S.inventory st'.now st'.ids
      (st'.ctr + S.characters.length + S.timeline.length + S.locations.length)
      db4 =
      .ok (db5, st'.ctr + S.characters.length + S.timeline.length +
        S.locations.length + S.inventory.length) := by
    rw [insertAllE_restamp .inventory st'.now st'.ids S.inventory
      (st'.ctr + S.characters.length + S.timeline.length + S.locations.length)
      db4
      hi
      (fun pre r post h => by
        have hrmem : r ∈ S.inventory := by
          rw [h]
          exact List.mem_append_right pre (List.mem_cons_self r post)
        show fkRef mapC (restampRow st'.now r) = true
        rw [fkRef_restamp, hmapC, fkRef_map_restamp S.characters r st'.now hcId]
        exact hiF r hrmem)
      hiD
      (fun r _ q hq => absurd hq (List.not_mem_nil q))
      (fun hcontr => Tbl.noConfusion hcontr)]
    rfl
  have e5 : insertAllE .memories S.memories st'.now st'.ids
      (st'.ctr + S.characters.length + S.timeline.length + S.locations.length +
        S.inventory.length) db5 =
      .ok (db6, st'.ctr + S.characters.length + S.timeline.length +
        S.locations.length + S.inventory.length + S.memories.length) := by
    rw [insertAllE_restamp .memories st'.now st'.ids S.memories
      (st'.ctr + S.characters.length + S.timeline.length + S.locations.length +
        S.inventory.length) db5
      hm
      (fun pre r post h => by
        have hrmem : r ∈ S.memories := by
          rw [h]
          exact List.mem_append_right pre (List.mem_cons_self r post)
        show fkRef mapC (restampRow st'.now r) = true
        rw [fkRef_restamp, hmapC, fkRef_map_restamp S.characters r st'.now hcId]
        exact hmF r hrmem)
      hmD
      (fun r _ q hq => absurd hq (List.not_mem_nil q))
      (fun hcontr => Tbl.noConfusion hcontr)]
    rfl
  rw [show dbClear (dbClear (dbClear (dbClear (dbClear st'.db
      .characters) .timeline) .locations) .inventory) .memories = db1 from rfl]
  rw [e1]
  simp only [bind, Except.bind]
  rw [e2]
  simp only [bind, Except.bind]
  rw [e3]
  simp only [bind, Except.bind]
  rw [e4]
  simp only [bind, Except.bind]
  rw [e5]
  simp only [bind, Except.bind]
  rfl

theorem tableWF_rows (t : Tbl) (rows : List Obj) (h : tableWF t rows = true) :
    ∀ r ∈ rows, truthy (objGet r "id") = true ∧ rowOk t r = true := by
  simp only [tableWF, Bool.and_eq_true, List.all_eq_true] at h
  exact h.1

theorem tableWF_dist (t : Tbl) (rows : List Obj) (h : tableWF t rows = true) :
    distinctBy (fun r => objGet r "id") rows = true := by
  simp only [tableWF, Bool.and_eq_true] at h
  exact h.2

theorem dbWF_spec (db : Db) (h : dbWF db = true) :
    tableWF .characters db.characters = true ∧
    tableWF .timeline db.timeline = true ∧
    tableWF .locations db.locations = true ∧
    tableWF .inventory db.inventory = true ∧
    tableWF .memories db.memories = true ∧
    distinctBy (fun r => objGet r "name") db.locations = true ∧
    (∀ r ∈ db.inventory, fkRef db.characters r = true) ∧
    (∀ r ∈ db.memories, fkRef db.characters r = true) := by
  simp only [dbWF, Bool.and_eq_true, List.all_eq_true] at h
  obtain ⟨⟨⟨⟨⟨⟨⟨h1, h2⟩, h3⟩, h4⟩, h5⟩, h6⟩, h7⟩, h8⟩ := h
  exact ⟨h1, h2, h3, h4, h5, h6, h7, h8⟩

theorem createSnapshot_eq (st : St) (desc : String) :
    createSnapshot st desc =
      (st.ids st.ctr, { st with
        ctr := st.ctr + 1
        db := { st.db with snapshots := st.db.snapshots ++
          [{ id := st.ids st.ctr
             snapshot_time := st.now
             state_data := { characters := st.db.characters
                             timeline := st.db.timeline
                             locations := st.db.locations
                             inventory := st.db.inventory
                             memories := st.db.memories }
             description := desc
             created_at := st.now
             updated_at := st.now }] } }) := rfl

/-- C3 (amended): createSnapshot followed by restoreSnapshot of that snapshot
id, with no intervening writes, succeeds and reproduces all five tables
row-for-row modulo re-stamping: each restored row is `restampRow n₂` of the
original, which keeps the id and every other field unchanged and overwrites
only `created_at` / `updated_at` with the restore-time clock value. The
locations dump must list parents before children (`parentChain`): the restore
replays it one INSERT at a time under `foreign_keys = ON`, so a
child-before-parent dump — reachable through UPDATE re-parenting, though
never through inserts alone — makes the `parent_location` reference fail and
the whole restore roll back. -/
theorem c3_roundtrip_modulo_stamps (st : St) (desc : String) (n₂ : Int)
    (hWF : dbWF st.db = true)
    (hpar : parentChain [] st.db.locations = true)
    (hfresh : ∀ s ∈ st.db.snapshots, ¬ s.id = st.ids st.ctr) :
    (restoreSnapshot { (createSnapshot st desc).2 with now := n₂ }
        (createSnapshot st desc).1).1 = .ok () ∧
    (restoreSnapshot { (createSnapshot st desc).2 with now := n₂ }
        (createSnapshot st desc).1).2.db.characters =
      st.db.characters.map (restampRow n₂) ∧
    (restoreSnapshot { (createSnapshot st desc).2 with now := n₂ }
        (createSnapshot st desc).1).2.db.timeline =
      st.db.timeline.map (restampRow n₂) ∧
    (restoreSnapshot { (createSnapshot st desc).2 with now := n₂ }
        (createSnapshot st desc).1).2.db.locations =
      st.db.locations.map (restampRow n₂) ∧
    (restoreSnapshot { (createSnapshot st desc).2 with now := n₂ }
        (createSnapshot st desc).1).2.db.inventory =
      st.db.inventory.map (restampRow n₂) ∧
    (restoreSnapshot { (createSnapshot st desc).2 with now := n₂ }
        (createSnapshot st desc).1).2.db.memories =
      st.db.memories.map (restampRow n₂) ∧
    (∀ r, objGet (restampRow n₂ r) "created_at" = some (.vint n₂) ∧
      objGet (restampRow n₂ r) "updated_at" = some (.vint n₂)) ∧
    (∀ r k, ¬ k = "id" → ¬ k = "created_at" → ¬ k = "updated_at" →
      objGet (restampRow n₂ r) k = objGet r k) ∧
    (∀ r ∈ st.db.characters, objGet (restampRow n₂ r) "id" = objGet r "id") := by
  obtain ⟨w1, w2, w3, w4, w5, w6, w7, w8⟩ := dbWF_spec st.db hWF
  have hok := restoreSnapshot_ok
    { (createSnapshot st desc).2 with now := n₂ }
    (createSnapshot st desc).1
    { id := st.ids st.ctr
      snapshot_time := st.now
      state_data := { characters := st.db.characters
                      timeline := st.db.timeline
                      locations := st.db.locations
                      inventory := st.db.inventory
                      memories := st.db.memories }
      description := desc
      created_at := st.now
      updated_at := st.now }
    (find?_append_fresh st.db.snapshots _ (st.ids st.ctr) hfresh rfl)
    (tableWF_rows .characters st.db.characters w1)
    (tableWF_dist .characters st.db.characters w1)
    (tableWF_rows .timeline st.db.timeline w2)
    (tableWF_dist .timeline st.db.timeline w2)
    (tableWF_rows .locations st.db.locations w3)
    (tableWF_dist .locations st.db.locations w3)
    w6
    hpar
    (tableWF_rows .inventory st.db.inventory w4)
    (tableWF_dist .inventory st.db.inventory w4)
    w7
    (tableWF_rows .memories st.db.memories w5)
    (tableWF_dist .memories st.db.memories w5)
    w8
  rw [hok]
  refine ⟨rfl, rfl, rfl, rfl, rfl, rfl, ?_, ?_, ?_⟩
  · exact fun r => ⟨mkInsertRecord_created_at r n₂ "",
      mkInsertRecord_updated_at r n₂ ""⟩
  · exact fun r k h1 h2 h3 => mkInsertRecord_other r n₂ "" k h1 h2 h3
  · exact fun r hr => mkInsertRecord_id_of_truthy r n₂ ""
      ((tableWF_rows .characters st.db.characters w1 r hr).1)

theorem c3_roundtrip_modulo_stamps_witness :
    dbWF stAlice.db = true ∧
    parentChain [] stAlice.db.locations = true ∧
    (∀ s ∈ stAlice.db.snapshots, ¬ s.id = stAlice.ids stAlice.ctr) ∧
    ((restoreSnapshot { (createSnapshot stAlice "d").2 with now := 6 }
        (createSnapshot stAlice "d").1).1 = .ok () ∧
     (restoreSnapshot { (createSnapshot stAlice "d").2 with now := 6 }
        (createSnapshot stAlice "d").1).2.db.characters =
      stAlice.db.characters.map (restampRow 6)) :=
  ⟨by decide, by decide, by decide,
   (c3_roundtrip_modulo_stamps stAlice "d" 6 (by decide) (by decide)
     (by decide)).1,
   (c3_roundtrip_modulo_stamps stAlice "d" 6 (by decide) (by decide)
     (by decide)).2.1⟩

/-- The ordering hypothesis of the amended round-trip theorem is essential:
on `stChildFirst`, whose locations table satisfies `dbWF` (the parent of
every `parent_location` exists somewhere in the table) but whose dump lists a
child before its parent, the snapshot restore hits the `parent_location`
foreign key at the child's re-insert, the transaction rolls back, and the
pre-restore state survives unchanged. -/
theorem restore_child_first_fails :
    dbWF stChildFirst.db = true ∧
    parentChain [] stChildFirst.db.locations = false ∧
    (restoreSnapshot { (createSnapshot stChildFirst "d").2 with now := 6 }
      (createSnapshot stChildFirst "d").1).1 = .error "constraint violation" ∧
    (restoreSnapshot { (createSnapshot stChildFirst "d").2 with now := 6 }
      (createSnapshot stChildFirst "d").1).2 =
      { (createSnapshot stChildFirst "d").2 with now := 6 } :=
  ⟨by decide, by decide, rfl, rfl⟩
